import Mathlib

/-!
Verification of the geo-referencing and geospatial-data layer of the
`anuga_core` excerpt.

The development shallowly embeds, over exact rationals (`ℚ`) in place of
IEEE doubles:

* `anuga/coordinate_transforms/geo_reference.py` — the `Geo_reference`
  value type (`change_points_geo_ref`, `get_absolute`, `is_absolute`,
  `reconcile_zones`, `read_ASCII`, `write_ASCII`, `__cmp__`);
* `anuga/geospatial_data/geospatial_data.py` — the `Geospatial_data`
  container (`get_data_points`, `__add__`, `clip`, `clip_outside`,
  `export_points_file` / `import_points_file` for the `.xya` text format
  and the `.pts` structured format, `_read_xya_file`, `_write_xya_file`,
  `clean_line`).

Python strings are embedded as `List Char`; a text file is a list of
lines, each line carried without its trailing newline, and reading past
the last line models `fd.readline()` returning the empty string at EOF.
Python exceptions are an explicit error type and fallible operations
return `Except`.
-/

/-- The Python exception kinds raised (or mentioned) by the embedded code. -/
inductive PyErr where
  | assertionError
  | shapeError
  | titleError
  | parsingError
  | valueError
  | syntaxError
  | ioError
  | anugaError
  | attributeError
  | exceptionError
  deriving DecidableEq, Repr

/-- Embedded Python string: a list of characters. -/
abbrev Str := List Char

/-- `DEFAULT_ZONE = -1`, the "unset" UTM-zone sentinel
(geo_reference.py line 15). -/
def DEFAULT_ZONE : ℤ := -1

/-- `Geo_reference`: UTM zone plus local origin (xllcorner, yllcorner).
The carried-but-inert fields (datum, projection, units, false easting and
northing) play no role in any embedded operation and are omitted. -/
structure Geo_reference where
  zone : ℤ
  xllcorner : ℚ
  yllcorner : ℚ
  deriving DecidableEq, Repr

/-- The default geo reference `Geo_reference()`: unset zone, origin (0,0). -/
def defaultGeoRef : Geo_reference := ⟨DEFAULT_ZONE, 0, 0⟩

/-- `atol` of `Numeric.allclose` (default absolute tolerance 1e-8); with the
comparison target 0 the relative-tolerance term vanishes. -/
def atol : ℚ := 1 / 10 ^ 8

/-- `Geo_reference.is_absolute` (lines 179-184): true iff
`allclose([xllcorner, yllcorner], 0)`, i.e. both origin coordinates are
within `atol` of zero. -/
def is_absolute (g : Geo_reference) : Bool :=
  decide (|g.xllcorner| ≤ atol) && decide (|g.yllcorner| ≤ atol)

/-- `Geo_reference.get_absolute` (lines 188-226) on a well-shaped N×2 point
list: adds the origin to every point unless `is_absolute`. -/
def get_absolute (g : Geo_reference) (pts : List (ℚ × ℚ)) : List (ℚ × ℚ) :=
  if is_absolute g then pts
  else pts.map (fun p => (p.1 + g.xllcorner, p.2 + g.yllcorner))

/-- `Geo_reference.change_points_geo_ref` (lines 137-176) on a well-shaped
N×2 point list: add the points' own geo reference origin (when one is given;
`none` means the points are already absolute), then subtract this reference's
origin.  The source skips the arithmetic when `points_geo_ref is self`
(object identity); over exact rationals that branch returns the same value
(`p + o - o = p`), and every call site embedded here passes a distinct
object, so the translation always performs the arithmetic. -/
def change_points_geo_ref (self : Geo_reference) (points_geo_ref : Option Geo_reference)
    (pts : List (ℚ × ℚ)) : List (ℚ × ℚ) :=
  let ox : ℚ := match points_geo_ref with | some r => r.xllcorner | none => 0
  let oy : ℚ := match points_geo_ref with | some r => r.yllcorner | none => 0
  pts.map (fun p => (p.1 + ox - self.xllcorner, p.2 + oy - self.yllcorner))

/-- The raw argument shapes `change_points_geo_ref` accepts after
`ensure_numeric`: a rank-1 vector (a single point) or a rank-2 array of
uniform row width `w`. -/
inductive PointsInput where
  | single (xs : List ℚ)
  | matrix (w : ℕ) (rows : List (List ℚ))
  deriving DecidableEq, Repr

/-- `Geo_reference.change_points_geo_ref` (lines 137-176) including its shape
checks.  A rank-1 input must have exactly two elements
(`assert len(points) == 2` — an `assert`, raising `AssertionError`) and is
reshaped to 1×2; a rank-2 input must have row width 2
(`assert points.shape[1] == 2`, again an `assert`). -/
def change_points_geo_ref_arr (self : Geo_reference) (points : PointsInput)
    (points_geo_ref : Option Geo_reference) : Except PyErr (List (ℚ × ℚ)) :=
  match points with
  | .single xs =>
      if xs.length = 2 then
        .ok (change_points_geo_ref self points_geo_ref [(xs.getD 0 0, xs.getD 1 0)])
      else .error .assertionError
  | .matrix w rows =>
      if w = 2 then
        .ok (change_points_geo_ref self points_geo_ref
          (rows.map (fun r => (r.getD 0 0, r.getD 1 0))))
      else .error .assertionError

/-- `Geo_reference.reconcile_zones` (lines 229-242).  The source mutates the
zone fields of `self` and `other` in place; the embedding returns the updated
pair of zones, or `ANUGAError` when both zones are concrete and unequal. -/
def reconcile_zones (z1 z2 : ℤ) : Except PyErr (ℤ × ℤ) :=
  if z1 = z2 ∨ (z1 = DEFAULT_ZONE ∧ z2 = DEFAULT_ZONE) then .ok (z1, z2)
  else if z1 = DEFAULT_ZONE then .ok (z2, z2)
  else if z2 = DEFAULT_ZONE then .ok (z1, z1)
  else .error .anugaError

/-- `Geo_reference.__cmp__` (lines 256-267): result 1 for `other is None`;
otherwise starts from 0 and sets 1 whenever a field of `self` differs from
that same field of `self` (the source compares `self.xllcorner` with
`self.xllcorner`, and likewise for the other two fields). -/
def geo_cmp (self : Geo_reference) (other : Option Geo_reference) : ℤ :=
  match other with
  | none => 1
  | some _ =>
      if ¬ (self.xllcorner = self.xllcorner) then 1
      else if ¬ (self.yllcorner = self.yllcorner) then 1
      else if ¬ (self.zone = self.zone) then 1
      else 0

/-- Attribute dictionary: an association list from attribute name to the
attribute's value sequence, in dictionary iteration order. -/
abbrev Attrs := List (Str × List ℚ)

/-- Dictionary key lookup. -/
def attrLookup (k : Str) : Attrs → Option (List ℚ)
  | [] => none
  | (k', v) :: rest => if k' = k then some v else attrLookup k rest

/-- `Geospatial_data`: points stored relative to the owned geo reference,
optional attribute dictionary, geo reference. -/
structure Geospatial_data where
  data_points : List (ℚ × ℚ)
  attributes : Option Attrs
  geo_reference : Geo_reference
  deriving DecidableEq, Repr

/-- `Geospatial_data.get_data_points(absolute=True)` (lines 336-356):
derives absolute coordinates via `geo_reference.get_absolute`.  The call is
embedded state-passingly: the second component is the container after the
call.  `get_absolute` works on the copy produced by `ensure_numeric`
(`anuga.utilities.numerical_tools`, not part of this excerpt; modelled from
the spec: points stay stored relative to the owned geo reference and
absolute coordinates are derived, never stored), so the stored points are
not written back. -/
def gs_get_data_points_absolute (g : Geospatial_data) :
    List (ℚ × ℚ) × Geospatial_data :=
  (get_absolute g.geo_reference g.data_points, g)

/-- The absolute coordinates of a container's points
(`get_data_points(absolute=True)`, value part). -/
def gsAbsPoints (g : Geospatial_data) : List (ℚ × ℚ) :=
  get_absolute g.geo_reference g.data_points

/-- The key loop of `__add__`'s attribute concatenation (lines 452-462):
each key of the left dictionary is looked up in the right one — a missing
key raises the mismatch `Exception`, a present key concatenates the two
value sequences. -/
def concatAttrsGo (m : Attrs) : Attrs → Except PyErr Attrs
  | [] => .ok []
  | p :: rest =>
      match attrLookup p.1 m with
      | some v2 => (concatAttrsGo m rest).map (fun r => (p.1, p.2 ++ v2) :: r)
      | none => .error .exceptionError

/-- The attribute-concatenation step of `Geospatial_data.__add__`
(lines 442-462): with no attributes on either side the result has none; a
`None` left side with attributes on the right raises the
attribute-mismatch `Exception`; otherwise every key of the left dictionary
is looked up in the right one — a missing key raises the mismatch
`Exception`, a present key concatenates the two value sequences.  Keys
present only on the right are never examined.  (With attributes on the left
and `other.attributes = None`, the lookup `other.attributes.has_key`
raises `AttributeError` at the first key.) -/
def concatAttrs : Option Attrs → Option Attrs → Except PyErr (Option Attrs)
  | none, none => .ok none
  | none, some _ => .error .exceptionError
  | some l, ob =>
      match ob with
      | none => if l = [] then .ok (some []) else .error .attributeError
      | some m => (concatAttrsGo m l).map some

/-- `Geospatial_data.__add__` (lines 386-467): reconcile the zones, build a
new reference from the reconciled zone and the componentwise smaller origin,
rebase both relative point sets into it, concatenate points (self first) and
attributes. -/
def gsAdd (a b : Geospatial_data) : Except PyErr Geospatial_data := do
  let z ← reconcile_zones a.geo_reference.zone b.geo_reference.zone
  let xll := if a.geo_reference.xllcorner ≤ b.geo_reference.xllcorner
    then a.geo_reference.xllcorner else b.geo_reference.xllcorner
  let yll := if a.geo_reference.yllcorner ≤ b.geo_reference.yllcorner
    then a.geo_reference.yllcorner else b.geo_reference.yllcorner
  let newRef : Geo_reference := ⟨z.1, xll, yll⟩
  let g1 : Geo_reference := { a.geo_reference with zone := z.1 }
  let g2 : Geo_reference := { b.geo_reference with zone := z.2 }
  let p1 := change_points_geo_ref newRef (some g1) a.data_points
  let p2 := change_points_geo_ref newRef (some g2) b.data_points
  let attrs ← concatAttrs a.attributes b.attributes
  .ok ⟨p1 ++ p2, attrs, newRef⟩

/-- Select the entries of `l` at the given index list (`Numeric.take`). -/
def takeIndices (l : List ℚ) (idx : List ℕ) : List ℚ :=
  idx.map (fun i => l.getD i 0)

/-- Select the points of `l` at the given index list (`Numeric.take`). -/
def takeIndicesP (l : List (ℚ × ℚ)) (idx : List ℕ) : List (ℚ × ℚ) :=
  idx.map (fun i => l.getD i (0, 0))

/-- Modelled from the spec: `inside_polygon` of `anuga.utilities.polygon`
(not part of this excerpt) — the external polygon-containment service
`point-in-polygon(points, polygon, closed) -> indices`, returning the
indices of the points the containment test accepts.  The test itself is
abstracted as the boolean predicate `c` (the polygon and the `closed` flag
are baked into `c` by the caller). -/
def inside_polygon (c : ℚ × ℚ → Bool) (pts : List (ℚ × ℚ)) : List ℕ :=
  (List.range pts.length).filter (fun i => c (pts.getD i (0, 0)))

/-- Modelled from the spec: `outside_polygon` of `anuga.utilities.polygon`
(not part of this excerpt) — per the spec the two clip partitions are
"deterministic set complements of each other over the full point index
range", so `outside_polygon` selects exactly the indices the containment
test rejects. -/
def outside_polygon (c : ℚ × ℚ → Bool) (pts : List (ℚ × ℚ)) : List ℕ :=
  (List.range pts.length).filter (fun i => ! c (pts.getD i (0, 0)))

/-- `Geospatial_data.clip` (lines 216-251): take the absolute points
(`get_data_points()` with its default `absolute=True`), select those inside
the polygon, select every attribute at the same indices, and wrap the result
with the default geo reference.  A container without attributes yields an
empty attribute dictionary (not `None`). -/
def gs_clip (c : ℚ × ℚ → Bool) (g : Geospatial_data) : Geospatial_data :=
  let points := gsAbsPoints g
  let idx := inside_polygon c points
  let clippedAttrs : Attrs :=
    match g.attributes with
    | none => []
    | some l => l.map (fun p => (p.1, takeIndices p.2 idx))
  ⟨takeIndicesP points idx, some clippedAttrs, defaultGeoRef⟩

/-- `Geospatial_data.clip_outside` (lines 254-288): as `clip` but keeping
the points outside the polygon. -/
def gs_clip_outside (c : ℚ × ℚ → Bool) (g : Geospatial_data) : Geospatial_data :=
  let points := gsAbsPoints g
  let idx := outside_polygon c points
  let clippedAttrs : Attrs :=
    match g.attributes with
    | none => []
    | some l => l.map (fun p => (p.1, takeIndices p.2 idx))
  ⟨takeIndicesP points idx, some clippedAttrs, defaultGeoRef⟩

/-! ### Character and string primitives (Python `str` operations) -/

/-- Python whitespace for `str.strip`. -/
def isWS (c : Char) : Bool := c = ' ' || c = '\n' || c = '\t' || c = '\r'

/-- `str.lstrip` (leading whitespace removed). -/
def trimLeft (s : Str) : Str := s.dropWhile isWS

/-- `str.strip`: leading and trailing whitespace removed. -/
def trim (s : Str) : Str := (trimLeft ((trimLeft s.reverse)).reverse)

/-- `str.split(d)` for a one-character delimiter `d`. -/
def splitOnChar (d : Char) (s : Str) : List Str :=
  s.foldr (fun c acc =>
    if c = d then [] :: acc
    else match acc with
      | a :: r => (c :: a) :: r
      | [] => [[c]]) [[]]

/-- Join fields with a one-character delimiter (the source builds the same
string by appending the delimiter after every field and stripping the last
delimiter). -/
def joinWith (d : Char) : List Str → Str
  | [] => []
  | [a] => a
  | a :: rest => a ++ d :: joinWith d rest

/-- `str.upper` on one character. -/
def upChar (c : Char) : Char := c.toUpper

/-- `clean_line(line, delimiter)` (geospatial_data.py lines 813-830): strip
the line, split on the delimiter, drop entries that are empty and strip the
rest. -/
def clean_line (line : Str) (d : Char) : List Str :=
  ((splitOnChar d (trim line)).filter (fun s => s ≠ [])).map trim

/-! ### Decimal literals: Python `str`/`float`/`int` on the values the code
serializes.  Floating values are embedded as rationals; a rational whose
denominator divides a power of ten is written as its exact decimal literal,
which is what `str` produces for the short decimals appearing in point
files. -/

/-- The decimal digit characters. -/
def digitChar (d : ℕ) : Char :=
  match d with
  | 0 => '0' | 1 => '1' | 2 => '2' | 3 => '3' | 4 => '4'
  | 5 => '5' | 6 => '6' | 7 => '7' | 8 => '8' | _ => '9'

/-- Numeric value of a digit character. -/
def charVal (c : Char) : ℕ := c.toNat - 48

/-- Digit test. -/
def isDigit (c : Char) : Bool := 48 ≤ c.toNat && c.toNat ≤ 57

/-- Decimal rendering of a natural number. -/
def natRender (n : ℕ) : Str :=
  if n = 0 then ['0'] else ((Nat.digits 10 n).map digitChar).reverse

/-- Decimal rendering padded with leading zeros to width `k`. -/
def padRender (m k : ℕ) : Str :=
  List.replicate (k - (natRender m).length) '0' ++ natRender m

/-- Value of a digit string (leading zeros allowed). -/
def digitsVal (s : Str) : ℕ := s.foldl (fun a c => 10 * a + charVal c) 0

/-- Strip one optional leading sign character, reporting whether it was a
minus. -/
def stripSign (s : Str) : Bool × Str :=
  match s with
  | [] => (false, [])
  | c :: r => if c = '-' then (true, r) else if c = '+' then (false, r) else (false, c :: r)

/-- Python `int(s)`: strip, optional sign, at least one digit, no other
characters. -/
def parseInt (s : Str) : Option ℤ :=
  let ns := stripSign (trim s)
  let neg := ns.1
  let u := ns.2
  if u ≠ [] && u.all isDigit then
    some (if neg then -(digitsVal u : ℤ) else (digitsVal u : ℤ))
  else none

/-- Python `float(s)` restricted to plain decimal literals (optional sign,
digits, optional decimal point): the grammar produced by the writer and used
by the point files.  Exponent and non-finite forms are outside the modelled
fragment. -/
def parseFloat (s : Str) : Option ℚ :=
  let ns := stripSign (trim s)
  let neg := ns.1
  let u := ns.2
  match splitOnChar '.' u with
  | [a] =>
      if a ≠ [] && a.all isDigit then
        some (if neg then -(digitsVal a : ℚ) else (digitsVal a : ℚ))
      else none
  | [a, b] =>
      if (a ≠ [] || b ≠ []) && a.all isDigit && b.all isDigit then
        let v : ℚ := (digitsVal a : ℚ) + (digitsVal b : ℚ) / 10 ^ b.length
        some (if neg then -v else v)
      else none
  | _ => none

/-- Smallest exponent `k ≤ den` with `den ∣ 10 ^ k`, when one exists.  A
rational admits an exact decimal literal exactly when its denominator passes
this test. -/
def decExp (den : ℕ) : Option ℕ :=
  (List.range (den + 1)).find? (fun k => 10 ^ k % den = 0)

/-- A rational that can be written exactly as a decimal literal (its
denominator divides a power of ten) — the embedded image of an IEEE double
printed by `str`. -/
def DecRepr (q : ℚ) : Prop := (decExp q.den).isSome

instance (q : ℚ) : Decidable (DecRepr q) := by
  unfold DecRepr; infer_instance

/-- Python `str` on an embedded floating value: the exact decimal literal
(sign, integer part, and for a fractional value a point and `k` fraction
digits).  Values outside the decimal fragment (never produced by the
embedded code under its `DecRepr` hypotheses) fall back to `"0"`. -/
def dumpRat (q : ℚ) : Str :=
  match decExp q.den with
  | none => ['0']
  | some k =>
      let m : ℕ := q.num.natAbs * (10 ^ k / q.den)
      let body : Str :=
        if k = 0 then natRender m
        else natRender (m / 10 ^ k) ++ '.' :: padRender (m % 10 ^ k) k
      if q.num < 0 then '-' :: body else body

/-- Python `str` on an integer (the zone line of a geo-reference block). -/
def dumpInt (z : ℤ) : Str :=
  if z < 0 then '-' :: natRender z.natAbs else natRender z.natAbs

/-! ### Geo-reference serialization (geo_reference.py lines 101-135) -/

/-- `TITLE = '#geo reference'` (line 16; the trailing newline of the source
constant is the line terminator, which the line-based embedding strips). -/
def TITLE : Str := ['#', 'g', 'e', 'o', ' ', 'r', 'e', 'f', 'e', 'r', 'e', 'n', 'c', 'e']

/-- `Geo_reference.write_ASCII` (lines 101-105): the four-line block —
title, zone, xllcorner, yllcorner. -/
def write_ASCII (g : Geo_reference) : List Str :=
  [TITLE, dumpInt g.zone, dumpRat g.xllcorner, dumpRat g.yllcorner]

/-- `Geo_reference.read_ASCII` (lines 107-120) with the title line already
read (`read_title`) and the remaining lines of the file.  Only the first two
characters of the title are compared, case-insensitively, against the first
two characters of `TITLE`; a mismatch raises `TitleError`.  The zone then
parses with `int` and the two origin lines with `float`; a malformed line
raises the `ValueError` those conversions throw (`fd.readline()` past the
end of file returns the empty string, which also fails conversion).  The
`except SyntaxError` handler that would raise `ParsingError` can never fire,
since `int`/`float` raise `ValueError`, not `SyntaxError`. -/
def read_ASCII (readTitle : Str) (rest : List Str) : Except PyErr Geo_reference :=
  if (readTitle.take 2).map upChar ≠ (TITLE.take 2).map upChar then
    .error .titleError
  else
    match parseInt (rest.getD 0 []) with
    | none => .error .valueError
    | some z =>
        match parseFloat (rest.getD 1 []) with
        | none => .error .valueError
        | some x =>
            match parseFloat (rest.getD 2 []) with
            | none => .error .valueError
            | some y => .ok ⟨z, x, y⟩

/-! ### The `.xya` text format (geospatial_data.py lines 626-668, 724-762) -/

/-- The attribute tail of one `.xya` data row
(`_write_xya_file`, lines 748-755): a literal comma followed by the
attribute values joined with the delimiter, or nothing when the container
has no attribute dictionary. -/
def xyaRowTail (delim : Char) (attrs : Option Attrs) (i : ℕ) : Str :=
  match attrs with
  | none => []
  | some l => ',' :: joinWith delim (l.map (fun p => dumpRat (p.2.getD i 0)))

/-- One `.xya` data row (`_write_xya_file`, lines 745-758):
`str(x) + delimiter + str(y)` followed by the attribute tail. -/
def xyaRow (delim : Char) (p : ℚ × ℚ) (attrs : Option Attrs) (i : ℕ) : Str :=
  dumpRat p.1 ++ delim :: dumpRat p.2 ++ xyaRowTail delim attrs i

/-- The title line of `_write_xya_file` (lines 737-742): the attribute
names joined with the delimiter, empty when there is no attribute
dictionary. -/
def xyaTitleLine (delim : Char) (attrs : Option Attrs) : Str :=
  match attrs with
  | none => []
  | some l => joinWith delim (l.map (fun p => p.1))

/-- `_write_xya_file` (lines 724-762): the title line of attribute names
joined with the delimiter, one row per point, and, when a geo reference is
given, its four-line `write_ASCII` block. -/
def write_xya_file (pts : List (ℚ × ℚ)) (attrs : Option Attrs)
    (georef : Option Geo_reference) (delim : Char) : List Str :=
  xyaTitleLine delim attrs ::
    ((List.range pts.length).map (fun i => xyaRow delim (pts.getD i (0, 0)) attrs i)
      ++ (match georef with
          | none => []
          | some g => write_ASCII g))

/-- `setdefault(name, []).append(v)` on the attribute dictionary
(`_read_xya_file`, line 652). -/
def dictAppend (d : Attrs) (k : Str) (v : ℚ) : Attrs :=
  match d with
  | [] => [(k, [v])]
  | (k', w) :: rest => if k' = k then (k', w ++ [v]) :: rest else (k', w) :: dictAppend rest k v

/-- Append one parsed row of attribute values, column by column
(`_read_xya_file`, lines 648-652). -/
def appendVals (d : Attrs) : List Str → List ℚ → Attrs
  | [], _ => d
  | _, [] => d
  | k :: ks, v :: vs => appendVals (dictAppend d k v) ks vs

/-- Parse the attribute fields of one row with `float`
(`_read_xya_file`, lines 648-652; a conversion failure propagates as the
`SyntaxError` of line 654). -/
def parseFloats : List Str → Option (List ℚ)
  | [] => some []
  | s :: rest =>
      match parseFloat s, parseFloats rest with
      | some v, some vs => some (v :: vs)
      | _, _ => none

/-- The data-row loop of `_read_xya_file` (lines 632-656): consume lines
while the cleaned line has more than one field and the raw line does not
start with `#`; parse x and y with `float` (failure raises `SyntaxError`),
require as many remaining fields as attribute names (`IOError` otherwise),
parse them with `float` (failure again `SyntaxError`) and append each to its
column.  Returns the points, the attribute dictionary, and the line that
stopped the loop with the remaining lines (`none` when the file ended, where
`readline` returns the empty string). -/
def readRows (delim : Char) (attNames : List Str) (acc : List (ℚ × ℚ)) (dict : Attrs) :
    List Str → Except PyErr (List (ℚ × ℚ) × Attrs × Option (Str × List Str))
  | [] => .ok (acc, dict, none)
  | line :: rest =>
      let numbers := clean_line line delim
      if 1 < numbers.length ∧ line.head? ≠ some '#' then
        match parseFloat (numbers.getD 0 []), parseFloat (numbers.getD 1 []) with
        | some x, some y =>
            let nums2 := numbers.drop 2
            if attNames.length ≠ nums2.length then .error .ioError
            else
              match parseFloats nums2 with
              | some vals => readRows delim attNames (acc ++ [(x, y)]) (appendVals dict attNames vals) rest
              | none => .error .syntaxError
        | _, _ => .error .syntaxError
      else .ok (acc, dict, some (line, rest))

/-- `_read_xya_file(fd, delimiter)` (lines 626-668): read the title line and
clean it into the attribute names, run the data-row loop, then — when the
loop stopped on a line rather than at end of file — hand that line and the
remaining ones to `Geo_reference`'s `read_ASCII`.  An empty file gives an
empty title and no rows. -/
def read_xya_file (lines : List Str) (delim : Char) :
    Except PyErr (List (ℚ × ℚ) × Attrs × Option Geo_reference) := do
  let (title, rest) : Str × List Str :=
    match lines with
    | [] => ([], [])
    | t :: r => (t, r)
  let attNames := clean_line title delim
  let (pts, dict, stop) ← readRows delim attNames [] [] rest
  match stop with
  | none => .ok (pts, dict, none)
  | some (l, r) => do
      let g ← read_ASCII l r
      .ok (pts, dict, some g)

/-- `import_points_file` for a `.xya` file with the default delimiter
(lines 486-508): try the comma delimiter; a `TitleError` retries with a
space delimiter; `IndexError`, `ValueError` and `SyntaxError` become the
`IOError` "Could not open file"; an `IOError` from the row-length check is
re-raised as `IOError`. -/
def import_points_file_xya (lines : List Str) :
    Except PyErr (List (ℚ × ℚ) × Attrs × Option Geo_reference) :=
  let wrap : Except PyErr (List (ℚ × ℚ) × Attrs × Option Geo_reference) →
      Except PyErr (List (ℚ × ℚ) × Attrs × Option Geo_reference) := fun r =>
    match r with
    | .error .valueError => .error .ioError
    | .error .syntaxError => .error .ioError
    | r => r
  match read_xya_file lines ',' with
  | .error .titleError => wrap (read_xya_file lines ' ')
  | r => wrap r

/-- The `Geospatial_data` constructor run on freshly imported data
(lines 127-135): `check_data_points` asserts a rank-2 stored array, which
fails (an `assert`, so `AssertionError`) exactly when no point row was
parsed (an empty `Numeric.array` has rank 1); `set_attributes` keeps the
(possibly empty) imported dictionary; `set_geo_reference` replaces a `None`
imported reference by the default one, and for an imported reference the
rebase `get_data_points(geo_reference=...)` passes the very same object so
`change_points_geo_ref` takes its `points_geo_ref is self` branch and the
stored points are unchanged. -/
def gsFromImport (r : List (ℚ × ℚ) × Attrs × Option Geo_reference) :
    Except PyErr Geospatial_data :=
  if r.1 = [] then .error .assertionError
  else .ok ⟨r.1, some r.2.1, r.2.2.getD defaultGeoRef⟩

/-- `Geospatial_data(file_name=...)` on the lines of a `.xya` file. -/
def gsImport_xya (lines : List Str) : Except PyErr Geospatial_data :=
  match import_points_file_xya lines with
  | .ok r => gsFromImport r
  | .error e => .error e

/-- `export_points_file(..., absolute=True)` to a `.xya` file
(lines 543-547): write the absolute points and all attributes, and no geo
reference block. -/
def export_xya_absolute (g : Geospatial_data) : List Str :=
  write_xya_file (gsAbsPoints g) g.attributes none ','

/-- Modelled from the spec: the on-disk content of a `.pts` NetCDF file.
The NetCDF container itself (`Scientific.IO.NetCDF`) is not part of this
excerpt; per the spec it is a "self-describing record format storing point
count, 2-D point array, named attribute arrays, and an optional embedded
GeoReference block". -/
structure PtsFile where
  points : List (ℚ × ℚ)
  attributes : Attrs
  georef : Option Geo_reference
  deriving DecidableEq, Repr

/-- `_write_pts_file` (lines 670-720): store the point array, one named
variable per attribute (none when the dictionary is absent), and the geo
reference block when given. -/
def write_pts_file (pts : List (ℚ × ℚ)) (attrs : Option Attrs)
    (georef : Option Geo_reference) : PtsFile :=
  ⟨pts, attrs.getD [], georef⟩

/-- `_read_pts_file` (lines 571-623): the point array, the remaining named
variables as attribute dictionary, and the geo reference block —
`AttributeError` on a file without one makes the reference `None`. -/
def read_pts_file (f : PtsFile) : List (ℚ × ℚ) × Attrs × Option Geo_reference :=
  (f.points, f.attributes, f.georef)

/-- `export_points_file(..., absolute=True)` to a `.pts` file
(lines 554-558). -/
def export_pts_absolute (g : Geospatial_data) : PtsFile :=
  write_pts_file (gsAbsPoints g) g.attributes none

/-- `Geospatial_data(file_name=...)` on a `.pts` file. -/
def gsImport_pts (f : PtsFile) : Except PyErr Geospatial_data :=
  gsFromImport (read_pts_file f)

/-! ### Well-formedness predicates used as theorem hypotheses -/

/-- Lookup of a named attribute's values on a container (`None` attributes
have no keys). -/
def gsAttrLookup (g : Geospatial_data) (k : Str) : Option (List ℚ) :=
  match g.attributes with
  | none => none
  | some l => attrLookup k l

/-- An origin coordinate pair whose components are either exactly zero or
larger than the `allclose` tolerance, so that the `is_absolute` epsilon test
degenerates to an exact test.  Real data origins (UTM metre offsets) are
either exactly zero or far above 1e-8. -/
def originExact (g : Geo_reference) : Prop :=
  (|g.xllcorner| ≤ atol → g.xllcorner = 0) ∧ (|g.yllcorner| ≤ atol → g.yllcorner = 0)

instance (g : Geo_reference) : Decidable (originExact g) := by
  unfold originExact; infer_instance

/-- An attribute name the `.xya` title line carries faithfully: non-empty
and free of the delimiter and of whitespace. -/
def goodName (s : Str) : Bool :=
  s ≠ [] && s.all (fun c => !isWS c && c ≠ ',')

/-- The attribute dictionary invariant for a round-trippable `.xya` export:
distinct faithful names, every value sequence as long as the point list,
every value an exact decimal. -/
def xyaAttrsOK (l : Attrs) (n : ℕ) : Prop :=
  (l.map (fun p => p.1)).Nodup ∧
    ∀ p ∈ l, goodName p.1 = true ∧ p.2.length = n ∧ ∀ v ∈ p.2, DecRepr v

instance (l : Attrs) (n : ℕ) : Decidable (xyaAttrsOK l n) := by
  unfold xyaAttrsOK; infer_instance

/-- Both coordinates of every point are exact decimals. -/
def ptsDecRepr (pts : List (ℚ × ℚ)) : Prop :=
  ∀ p ∈ pts, DecRepr p.1 ∧ DecRepr p.2

instance (pts : List (ℚ × ℚ)) : Decidable (ptsDecRepr pts) := by
  unfold ptsDecRepr; infer_instance

/-- The attribute name sets of the two dictionaries agree (the "equal
attribute name sets" hypothesis of a clean merge). -/
def attrKeysMatch : Option Attrs → Option Attrs → Prop
  | none, none => True
  | some l, some m =>
      (∀ p ∈ l, (attrLookup p.1 m).isSome) ∧ ∀ p ∈ m, (attrLookup p.1 l).isSome
  | _, _ => False

instance (a b : Option Attrs) : Decidable (attrKeysMatch a b) := by
  unfold attrKeysMatch
  match a, b with
  | none, none => infer_instance
  | some l, some m => infer_instance
  | none, some _ => infer_instance
  | some _, none => infer_instance

/-- Every attribute sequence is as long as the point list (the PointSet
length invariant). -/
def attrLensOK (g : Geospatial_data) : Prop :=
  match g.attributes with
  | none => True
  | some l => ∀ p ∈ l, p.2.length = g.data_points.length

instance (g : Geospatial_data) : Decidable (attrLensOK g) := by
  unfold attrLensOK
  match g.attributes with
  | none => infer_instance
  | some l => infer_instance

/-- A `PointsInput` that is not an N×2 numeric layout: a single point
without exactly two elements, or a row width different from 2. -/
def badShape : PointsInput → Prop
  | .single xs => xs.length ≠ 2
  | .matrix w _ => w ≠ 2

instance (p : PointsInput) : Decidable (badShape p) := by
  unfold badShape
  match p with
  | .single xs => infer_instance
  | .matrix w rows => infer_instance

deriving instance DecidableEq for Except

/-! ## Claim theorems and supporting lemmas -/

/-- Claim C3: `reconcile_zones` follows exactly the spec's case analysis:
equal zones (including both being the unset sentinel) leave both unchanged;
exactly one unset zone adopts the other's concrete zone; two unequal
concrete zones fail with the zone-mismatch `ANUGAError` (and, failing, the
embedding returns no updated zones, matching the source, which raises before
assigning). -/
theorem reconcile_zones_case_analysis (z1 z2 : ℤ) :
    reconcile_zones z1 z2 =
      if z1 = z2 then .ok (z1, z2)
      else if z1 = DEFAULT_ZONE then .ok (z2, z2)
      else if z2 = DEFAULT_ZONE then .ok (z1, z1)
      else .error .anugaError := by
  unfold reconcile_zones
  split_ifs with h1 h2 h3 h4 h5 <;> simp_all

/-- Claim C4: querying absolute coordinates is effect-free on the stored
points: the container after the call is the input container, the stored
points are untouched, and a second identical query returns the same
derived result. -/
theorem get_data_points_absolute_pure (g : Geospatial_data) :
    (gs_get_data_points_absolute g).2 = g ∧
    ((gs_get_data_points_absolute g).2).data_points = g.data_points ∧
    (gs_get_data_points_absolute ((gs_get_data_points_absolute g).2)).1 =
      (gs_get_data_points_absolute g).1 :=
  ⟨rfl, rfl, rfl⟩

/-- Claim C10: `__cmp__` reports 0 (equality) against every non-`None`
reference, however the fields differ, because each field of `self` is
compared with itself; only comparison against `None` reports 1. -/
theorem geo_cmp_always_zero (a : Geo_reference) :
    geo_cmp a none = 1 ∧ ∀ b : Geo_reference, geo_cmp a (some b) = 0 := by
  refine ⟨rfl, fun b => ?_⟩
  simp [geo_cmp]

/-- Claim C9 (amended): on input that is not an N×2 numeric layout,
`change_points_geo_ref` fails with `AssertionError` — its shape checks are
`assert` statements — and never with `ShapeError` (which is what the sibling
`get_absolute` raises). -/
theorem change_points_geo_ref_bad_shape (self : Geo_reference) (p : PointsInput)
    (pgr : Option Geo_reference) :
    (badShape p → change_points_geo_ref_arr self p pgr = .error .assertionError) ∧
    ∀ e, change_points_geo_ref_arr self p pgr = .error e → e = .assertionError := by
  cases p with
  | single xs =>
      constructor
      · intro h
        simp only [badShape] at h
        simp [change_points_geo_ref_arr, h]
      · intro e he
        simp only [change_points_geo_ref_arr] at he
        split_ifs at he <;> simp_all
  | matrix w rows =>
      constructor
      · intro h
        simp only [badShape] at h
        simp [change_points_geo_ref_arr, h]
      · intro e he
        simp only [change_points_geo_ref_arr] at he
        split_ifs at he <;> simp_all

/-- Witness for C9's theorem at the single point `[1.0]` (one element). -/
theorem change_points_geo_ref_bad_shape_witness :
    badShape (.single [1]) ∧
      change_points_geo_ref_arr defaultGeoRef (.single [1]) none =
        .error .assertionError :=
  ⟨by decide,
    (change_points_geo_ref_bad_shape defaultGeoRef (.single [1]) none).1 (by decide)⟩

/-- Counterexample to C9 as stated: on the one-element single point `[1.0]`
the operation fails with `AssertionError`, which is a different error kind
than the claimed `ShapeError`. -/
theorem change_points_geo_ref_not_shape_error :
    change_points_geo_ref_arr defaultGeoRef (.single [1]) none =
        .error .assertionError ∧
      PyErr.assertionError ≠ PyErr.shapeError := by
  constructor
  · decide
  · decide

unseal Rat.add Rat.sub Rat.mul Rat.inv in
/-- Claim C5 (evaluated at the claim's own example): merging a set whose
attribute keys are `{elevation}` with one whose keys are
`{elevation, friction}` does NOT fail — `__add__` only checks `self`'s keys
against `other`'s — and produces a partial-attribute merge that silently
drops `friction`, contradicting both the claim and the method's docstring
("doesn't add if objects contain different attributes"). -/
theorem gsAdd_partial_attribute_merge :
    gsAdd ⟨[(1, 2)], some [("elevation".toList, [49/10])], ⟨56, 0, 0⟩⟩
        ⟨[(3, 4)], some [("elevation".toList, [5]), ("friction".toList, [3/10])], ⟨56, 0, 0⟩⟩ =
      .ok ⟨[(1, 2), (3, 4)], some [("elevation".toList, [49/10, 5])], ⟨56, 0, 0⟩⟩ ∧
    attrLookup "friction".toList [("elevation".toList, [49/10, 5])] = none := by
  constructor
  · decide
  · decide

theorem attrLookup_map (f : List ℚ → List ℚ) (k : Str) (l : Attrs) :
    attrLookup k (l.map (fun p => (p.1, f p.2))) = (attrLookup k l).map f := by
  induction l with
  | nil => rfl
  | cons hd tl ih =>
      obtain ⟨k', v⟩ := hd
      simp only [List.map_cons, attrLookup]
      split
      · rfl
      · exact ih

/-- `change_points_geo_ref` with no points reference subtracts this
reference's origin from every point. -/
theorem change_points_geo_ref_none (r : Geo_reference) (l : List (ℚ × ℚ)) :
    change_points_geo_ref r none l =
      l.map (fun p => (p.1 - r.xllcorner, p.2 - r.yllcorner)) := by
  unfold change_points_geo_ref
  simp [add_zero]

/-- Claim C2: converting points to absolute coordinates with `get_absolute`
and rebasing the result back into the same reference's frame with
`change_points_geo_ref` (treating the input as absolute) returns the
original relative points up to the `allclose` tolerance — exactly up to
`atol` per coordinate, the slack coming only from the `is_absolute` epsilon
test — for every origin and zone. -/
theorem get_absolute_rebase_roundtrip (ref : Geo_reference) (pts : List (ℚ × ℚ)) :
    List.Forall₂ (fun a b => |a.1 - b.1| ≤ atol ∧ |a.2 - b.2| ≤ atol)
      (change_points_geo_ref ref none (get_absolute ref pts)) pts := by
  rw [change_points_geo_ref_none]
  unfold get_absolute
  by_cases h : is_absolute ref
  · rw [if_pos h]
    simp only [is_absolute, Bool.and_eq_true, decide_eq_true_eq] at h
    rw [List.forall₂_map_left_iff, List.forall₂_same]
    intro p hp
    constructor
    · have e : p.1 - ref.xllcorner - p.1 = -ref.xllcorner := by ring
      rw [e, abs_neg]
      exact h.1
    · have e : p.2 - ref.yllcorner - p.2 = -ref.yllcorner := by ring
      rw [e, abs_neg]
      exact h.2
  · rw [if_neg h, List.map_map]
    rw [List.forall₂_map_left_iff, List.forall₂_same]
    intro p hp
    constructor
    · have e : (p.1 + ref.xllcorner) - ref.xllcorner - p.1 = 0 := by ring
      simp only [Function.comp]
      rw [e]
      norm_num [atol]
    · have e : (p.2 + ref.yllcorner) - ref.yllcorner - p.2 = 0 := by ring
      simp only [Function.comp]
      rw [e]
      norm_num [atol]

/-- Claim C7: over the same polygon-containment test, `clip` and
`clip_outside` partition the full point index range — the two selected index
lists together are a permutation of `range n` and are disjoint — and each
result carries exactly the points and index-aligned attribute values
selected by its index list. -/
theorem clip_clip_outside_partition (c : ℚ × ℚ → Bool) (g : Geospatial_data) :
    (inside_polygon c (gsAbsPoints g) ++ outside_polygon c (gsAbsPoints g)).Perm
        (List.range (gsAbsPoints g).length) ∧
    (∀ i, i ∈ inside_polygon c (gsAbsPoints g) → i ∉ outside_polygon c (gsAbsPoints g)) ∧
    (gs_clip c g).data_points = takeIndicesP (gsAbsPoints g) (inside_polygon c (gsAbsPoints g)) ∧
    (gs_clip_outside c g).data_points =
      takeIndicesP (gsAbsPoints g) (outside_polygon c (gsAbsPoints g)) ∧
    ∀ k v, gsAttrLookup g k = some v →
      gsAttrLookup (gs_clip c g) k = some (takeIndices v (inside_polygon c (gsAbsPoints g))) ∧
      gsAttrLookup (gs_clip_outside c g) k =
        some (takeIndices v (outside_polygon c (gsAbsPoints g))) := by
  refine ⟨?_, ?_, rfl, rfl, ?_⟩
  · exact List.filter_append_perm _ _
  · intro i hi ho
    simp only [inside_polygon, List.mem_filter] at hi
    simp only [outside_polygon, List.mem_filter] at ho
    rw [hi.2] at ho
    simp at ho
  · intro k v hv
    unfold gsAttrLookup at hv
    unfold gsAttrLookup gs_clip gs_clip_outside
    cases hA : g.attributes with
    | none => rw [hA] at hv; exact absurd hv (by simp)
    | some l =>
        rw [hA] at hv
        have hv' : attrLookup k l = some v := hv
        simp only
        constructor
        · rw [attrLookup_map (fun w => takeIndices w (inside_polygon c (gsAbsPoints g))), hv']
          rfl
        · rw [attrLookup_map (fun w => takeIndices w (outside_polygon c (gsAbsPoints g))), hv']
          rfl

/-- Claim C8 (amended): when parsing the trailing geo-reference block,
`TitleError` is raised exactly when the first TWO characters of the marker
line differ case-insensitively from `#g` — only a 2-character prefix of
`'#geo reference'` is compared — and a malformed zone line raises the
generic `ValueError` of `int`/`float` conversion; the distinct
`ParsingError` is unreachable, its `except SyntaxError` guard never
matching a `ValueError`. -/
theorem read_ASCII_error_kinds (title : Str) (rest : List Str) :
    (read_ASCII title rest = .error .titleError ↔
      (title.take 2).map upChar ≠ (TITLE.take 2).map upChar) ∧
    read_ASCII title rest ≠ .error .parsingError ∧
    ((title.take 2).map upChar = (TITLE.take 2).map upChar →
      parseInt (rest.getD 0 []) = none →
      read_ASCII title rest = .error .valueError) := by
  have main : (title.take 2).map upChar = (TITLE.take 2).map upChar →
      read_ASCII title rest = .error .valueError ∨
        ∃ g, read_ASCII title rest = .ok g := by
    intro htt
    unfold read_ASCII
    rw [if_neg (not_not_intro htt)]
    cases parseInt (rest.getD 0 []) with
    | none => exact Or.inl rfl
    | some z =>
        cases parseFloat (rest.getD 1 []) with
        | none => exact Or.inl rfl
        | some x =>
            cases parseFloat (rest.getD 2 []) with
            | none => exact Or.inl rfl
            | some y => exact Or.inr ⟨_, rfl⟩
  refine ⟨⟨?_, ?_⟩, ?_, ?_⟩
  · intro hc
    by_cases hcnd : (title.take 2).map upChar = (TITLE.take 2).map upChar
    · rcases main hcnd with hv | ⟨g, hg⟩
      · rw [hc] at hv
        simp at hv
      · rw [hc] at hg
        simp at hg
    · exact hcnd
  · intro hne
    unfold read_ASCII
    rw [if_pos hne]
  · intro hc
    by_cases hcnd : (title.take 2).map upChar = (TITLE.take 2).map upChar
    · rcases main hcnd with hv | ⟨g, hg⟩
      · rw [hc] at hv
        simp at hv
      · rw [hc] at hg
        simp at hg
    · have ht : read_ASCII title rest = .error .titleError := by
        unfold read_ASCII
        rw [if_pos hcnd]
      rw [hc] at ht
      simp at ht
  · intro heq hz0
    unfold read_ASCII
    rw [if_neg (not_not_intro heq), hz0]

/-- Witness for C8's theorem: a correct marker line followed by a
non-numeric zone line fails with `ValueError`. -/
theorem read_ASCII_error_kinds_witness :
    ("#geo reference".toList.take 2).map upChar = (TITLE.take 2).map upChar ∧
      parseInt (["zz".toList].getD 0 []) = none ∧
      read_ASCII "#geo reference".toList ["zz".toList] = .error .valueError :=
  ⟨by decide, by decide,
    (read_ASCII_error_kinds "#geo reference".toList ["zz".toList]).2.2 (by decide) (by decide)⟩

unseal Rat.add Rat.sub Rat.mul Rat.inv in
/-- Counterexample to C8 as stated: the marker line `#gXYZ` is not the
expected marker text `#geo reference`, yet parsing does not fail with
`TitleError` (only the first two characters are compared) — it succeeds. -/
theorem read_ASCII_accepts_wrong_marker :
    read_ASCII "#gXYZ".toList
        ["56".toList, "466600.0".toList, "8644444.0".toList] =
      .ok ⟨56, 466600, 8644444⟩ ∧
    "#gXYZ".toList ≠ TITLE := by
  constructor
  · decide
  · decide

unseal Rat.add Rat.sub Rat.mul Rat.inv in
/-- Witness for C7's theorem: a two-point set with an `elevation`
attribute, clipped by the half-plane test `x ≤ 1`. -/
theorem clip_clip_outside_partition_witness :
    gsAttrLookup ⟨[(0, 0), (2, 3)], some [("elevation".toList, [5, 7])], defaultGeoRef⟩
        "elevation".toList = some [5, 7] ∧
      gsAttrLookup
          (gs_clip (fun p => decide (p.1 ≤ 1))
            ⟨[(0, 0), (2, 3)], some [("elevation".toList, [5, 7])], defaultGeoRef⟩)
          "elevation".toList =
        some (takeIndices [5, 7]
          (inside_polygon (fun p => decide (p.1 ≤ 1))
            (gsAbsPoints ⟨[(0, 0), (2, 3)], some [("elevation".toList, [5, 7])], defaultGeoRef⟩))) :=
  ⟨by decide,
    ((clip_clip_outside_partition (fun p => decide (p.1 ≤ 1))
        ⟨[(0, 0), (2, 3)], some [("elevation".toList, [5, 7])], defaultGeoRef⟩).2.2.2.2
      "elevation".toList [5, 7] (by decide)).1⟩

theorem get_absolute_of_originExact (r : Geo_reference) (pts : List (ℚ × ℚ))
    (h : originExact r) :
    get_absolute r pts = pts.map (fun p => (p.1 + r.xllcorner, p.2 + r.yllcorner)) := by
  unfold get_absolute
  by_cases hab : is_absolute r
  · rw [if_pos hab]
    simp only [is_absolute, Bool.and_eq_true, decide_eq_true_eq] at hab
    rw [h.1 hab.1, h.2 hab.2]
    simp
  · rw [if_neg hab]

theorem originExact_min (a b : Geo_reference) (z : ℤ)
    (ha : originExact a) (hb : originExact b) :
    originExact ⟨z,
      if a.xllcorner ≤ b.xllcorner then a.xllcorner else b.xllcorner,
      if a.yllcorner ≤ b.yllcorner then a.yllcorner else b.yllcorner⟩ := by
  constructor
  · by_cases h : a.xllcorner ≤ b.xllcorner
    · simpa [h] using ha.1
    · simpa [h] using hb.1
  · by_cases h : a.yllcorner ≤ b.yllcorner
    · simpa [h] using ha.2
    · simpa [h] using hb.2

theorem reconcile_zones_ok (z1 z2 : ℤ)
    (h : z1 = z2 ∨ z1 = DEFAULT_ZONE ∨ z2 = DEFAULT_ZONE) :
    ∃ w, reconcile_zones z1 z2 = .ok w := by
  unfold reconcile_zones
  split_ifs with h1 h2 h3
  · exact ⟨_, rfl⟩
  · exact ⟨_, rfl⟩
  · exact ⟨_, rfl⟩
  · exfalso
    rcases h with h | h | h <;> simp_all

theorem concatAttrsGo_ok (m la : Attrs)
    (h : ∀ p ∈ la, (attrLookup p.1 m).isSome) :
    concatAttrsGo m la =
      .ok (la.map (fun p => (p.1, p.2 ++ (attrLookup p.1 m).getD []))) := by
  induction la with
  | nil => rfl
  | cons p rest ih =>
      have hp := h p (by simp)
      obtain ⟨v2, hv2⟩ := Option.isSome_iff_exists.mp hp
      unfold concatAttrsGo
      rw [hv2, ih (fun q hq => h q (by simp [hq]))]
      simp [hv2, Except.map]

theorem attrLookup_map_dep (f : Str → List ℚ → List ℚ) (k : Str) (l : Attrs) :
    attrLookup k (l.map (fun p => (p.1, f p.1 p.2))) = (attrLookup k l).map (f k) := by
  induction l with
  | nil => rfl
  | cons hd tl ih =>
      obtain ⟨k', v⟩ := hd
      simp only [List.map_cons, attrLookup]
      by_cases h : k' = k
      · subst h
        simp
      · rw [if_neg h, if_neg h]
        exact ih

theorem attrLookup_some_mem (k : Str) (v : List ℚ) (l : Attrs)
    (h : attrLookup k l = some v) : (k, v) ∈ l := by
  induction l with
  | nil => cases h
  | cons hd tl ih =>
      obtain ⟨k', w⟩ := hd
      unfold attrLookup at h
      by_cases hk : k' = k
      · rw [if_pos hk] at h
        obtain rfl : w = v := by injection h
        subst hk
        simp
      · rw [if_neg hk] at h
        exact List.mem_cons_of_mem _ (ih h)

/-- Claim C1: merging two point sets with reconcilable zones and equal
attribute name sets and then splitting the result at the original index
boundary recovers both inputs' absolute points and attribute sequences
unchanged.  Exact recovery holds whenever the origins are not within the
`allclose` epsilon of zero while nonzero (`originExact`), the only source of
floating-tolerance slack. -/
theorem merge_then_split_recovers (a b : Geospatial_data)
    (hz : a.geo_reference.zone = b.geo_reference.zone ∨
      a.geo_reference.zone = DEFAULT_ZONE ∨ b.geo_reference.zone = DEFAULT_ZONE)
    (hoa : originExact a.geo_reference) (hob : originExact b.geo_reference)
    (hk : attrKeysMatch a.attributes b.attributes)
    (hlen : attrLensOK a) :
    ∃ g, gsAdd a b = .ok g ∧
      (gsAbsPoints g).take a.data_points.length = gsAbsPoints a ∧
      (gsAbsPoints g).drop a.data_points.length = gsAbsPoints b ∧
      ∀ k va, gsAttrLookup a k = some va →
        ∃ vb, gsAttrLookup b k = some vb ∧
          gsAttrLookup g k = some (va ++ vb) ∧
          (va ++ vb).take a.data_points.length = va ∧
          (va ++ vb).drop a.data_points.length = vb := by
  obtain ⟨w, hw⟩ := reconcile_zones_ok _ _ hz
  have hca : ∃ oa, concatAttrs a.attributes b.attributes = .ok oa ∧
      ((a.attributes = none ∧ b.attributes = none ∧ oa = none) ∨
       (∃ la lb, a.attributes = some la ∧ b.attributes = some lb ∧
         oa = some (la.map (fun p => (p.1, p.2 ++ (attrLookup p.1 lb).getD []))))) := by
    cases hA : a.attributes with
    | none =>
        cases hB : b.attributes with
        | none => exact ⟨none, rfl, Or.inl ⟨rfl, rfl, rfl⟩⟩
        | some lb =>
            rw [hA, hB] at hk
            exact absurd hk (by simp [attrKeysMatch])
    | some la =>
        cases hB : b.attributes with
        | none =>
            rw [hA, hB] at hk
            exact absurd hk (by simp [attrKeysMatch])
        | some lb =>
            rw [hA, hB] at hk
            refine ⟨_, ?_, Or.inr ⟨la, lb, rfl, rfl, rfl⟩⟩
            show (concatAttrsGo lb la).map some = _
            rw [concatAttrsGo_ok lb la hk.1]
            rfl
  obtain ⟨oa, hoaeq, hcase⟩ := hca
  have hadd : gsAdd a b = .ok
      ⟨change_points_geo_ref
          ⟨w.1,
            if a.geo_reference.xllcorner ≤ b.geo_reference.xllcorner
              then a.geo_reference.xllcorner else b.geo_reference.xllcorner,
            if a.geo_reference.yllcorner ≤ b.geo_reference.yllcorner
              then a.geo_reference.yllcorner else b.geo_reference.yllcorner⟩
          (some { a.geo_reference with zone := w.1 }) a.data_points ++
        change_points_geo_ref
          ⟨w.1,
            if a.geo_reference.xllcorner ≤ b.geo_reference.xllcorner
              then a.geo_reference.xllcorner else b.geo_reference.xllcorner,
            if a.geo_reference.yllcorner ≤ b.geo_reference.yllcorner
              then a.geo_reference.yllcorner else b.geo_reference.yllcorner⟩
          (some { b.geo_reference with zone := w.2 }) b.data_points,
        oa,
        ⟨w.1,
          if a.geo_reference.xllcorner ≤ b.geo_reference.xllcorner
            then a.geo_reference.xllcorner else b.geo_reference.xllcorner,
          if a.geo_reference.yllcorner ≤ b.geo_reference.yllcorner
            then a.geo_reference.yllcorner else b.geo_reference.yllcorner⟩⟩ := by
    unfold gsAdd
    rw [hw]
    show Except.bind _ _ = _
    simp only [Except.bind]
    rw [hoaeq]
    rfl
  refine ⟨_, hadd, ?_, ?_, ?_⟩
  all_goals
    have hnr : originExact
        ⟨w.1,
          if a.geo_reference.xllcorner ≤ b.geo_reference.xllcorner
            then a.geo_reference.xllcorner else b.geo_reference.xllcorner,
          if a.geo_reference.yllcorner ≤ b.geo_reference.yllcorner
            then a.geo_reference.yllcorner else b.geo_reference.yllcorner⟩ :=
      originExact_min a.geo_reference b.geo_reference w.1 hoa hob
    have habs : gsAbsPoints
        ⟨change_points_geo_ref
            ⟨w.1,
              if a.geo_reference.xllcorner ≤ b.geo_reference.xllcorner
                then a.geo_reference.xllcorner else b.geo_reference.xllcorner,
              if a.geo_reference.yllcorner ≤ b.geo_reference.yllcorner
                then a.geo_reference.yllcorner else b.geo_reference.yllcorner⟩
            (some { a.geo_reference with zone := w.1 }) a.data_points ++
          change_points_geo_ref
            ⟨w.1,
              if a.geo_reference.xllcorner ≤ b.geo_reference.xllcorner
                then a.geo_reference.xllcorner else b.geo_reference.xllcorner,
              if a.geo_reference.yllcorner ≤ b.geo_reference.yllcorner
                then a.geo_reference.yllcorner else b.geo_reference.yllcorner⟩
            (some { b.geo_reference with zone := w.2 }) b.data_points,
          oa,
          ⟨w.1,
            if a.geo_reference.xllcorner ≤ b.geo_reference.xllcorner
              then a.geo_reference.xllcorner else b.geo_reference.xllcorner,
            if a.geo_reference.yllcorner ≤ b.geo_reference.yllcorner
              then a.geo_reference.yllcorner else b.geo_reference.yllcorner⟩⟩ =
        gsAbsPoints a ++ gsAbsPoints b := by
      show get_absolute _ _ = _
      rw [get_absolute_of_originExact _ _ hnr, List.map_append]
      congr 1
      · show (change_points_geo_ref _ _ _).map _ = get_absolute _ _
        rw [get_absolute_of_originExact _ _ hoa]
        unfold change_points_geo_ref
        rw [List.map_map]
        apply List.map_congr_left
        intro p _
        simp only [Function.comp, Prod.mk.injEq]
        exact ⟨by ring, by ring⟩
      · show (change_points_geo_ref _ _ _).map _ = get_absolute _ _
        rw [get_absolute_of_originExact _ _ hob]
        unfold change_points_geo_ref
        rw [List.map_map]
        apply List.map_congr_left
        intro p _
        simp only [Function.comp, Prod.mk.injEq]
        exact ⟨by ring, by ring⟩
    have hlenA : (gsAbsPoints a).length = a.data_points.length := by
      unfold gsAbsPoints get_absolute
      split <;> simp
  · rw [habs]
    exact List.take_left' hlenA
  · rw [habs]
    exact List.drop_left' hlenA
  · intro k va hva
    rcases hcase with ⟨hA, hB, hoa0⟩ | ⟨la, lb, hA, hB, hoa0⟩
    · rw [gsAttrLookup, hA] at hva
      cases hva
    · rw [gsAttrLookup, hA] at hva
      have hva' : attrLookup k la = some va := hva
      have hmem := attrLookup_some_mem k va la hva'
      rw [hA, hB] at hk
      have hsb := hk.1 (k, va) hmem
      obtain ⟨vb, hvb⟩ := Option.isSome_iff_exists.mp hsb
      have hlenva : va.length = a.data_points.length := by
        rw [attrLensOK, hA] at hlen
        exact hlen (k, va) hmem
      refine ⟨vb, ?_, ?_, ?_, ?_⟩
      · rw [gsAttrLookup, hB]
        exact hvb
      · show (match oa with | none => none | some l => attrLookup k l) = _
        rw [hoa0]
        show attrLookup k (la.map (fun p => (p.1, p.2 ++ (attrLookup p.1 lb).getD []))) = _
        rw [attrLookup_map_dep (fun key v => v ++ (attrLookup key lb).getD []) k la, hva']
        simp [hvb]
      · exact List.take_left' hlenva
      · rw [List.drop_left' hlenva]

unseal Rat.add Rat.sub Rat.mul Rat.inv in
/-- Witness for C1's theorem: two one-point sets in zone 56 with origins
(100,200) and (150,100) and a shared `elevation` attribute. -/
theorem merge_then_split_recovers_witness :
    (originExact (⟨56, 100, 200⟩ : Geo_reference) ∧
      originExact (⟨56, 150, 100⟩ : Geo_reference) ∧
      attrKeysMatch (some [("elevation".toList, [(5 : ℚ)])])
        (some [("elevation".toList, [(7 : ℚ)])])) ∧
    ∃ g, gsAdd ⟨[(1, 2)], some [("elevation".toList, [5])], ⟨56, 100, 200⟩⟩
          ⟨[(3, 4)], some [("elevation".toList, [7])], ⟨56, 150, 100⟩⟩ = .ok g ∧
      (gsAbsPoints g).take 1 =
        gsAbsPoints ⟨[(1, 2)], some [("elevation".toList, [5])], ⟨56, 100, 200⟩⟩ ∧
      (gsAbsPoints g).drop 1 =
        gsAbsPoints ⟨[(3, 4)], some [("elevation".toList, [7])], ⟨56, 150, 100⟩⟩ ∧
      ∀ k va,
        gsAttrLookup ⟨[(1, 2)], some [("elevation".toList, [5])], ⟨56, 100, 200⟩⟩ k = some va →
        ∃ vb,
          gsAttrLookup ⟨[(3, 4)], some [("elevation".toList, [7])], ⟨56, 150, 100⟩⟩ k = some vb ∧
          gsAttrLookup g k = some (va ++ vb) ∧
          (va ++ vb).take 1 = va ∧ (va ++ vb).drop 1 = vb :=
  ⟨⟨by decide, by decide, by decide⟩,
    merge_then_split_recovers
      ⟨[(1, 2)], some [("elevation".toList, [5])], ⟨56, 100, 200⟩⟩
      ⟨[(3, 4)], some [("elevation".toList, [7])], ⟨56, 150, 100⟩⟩
      (Or.inl rfl) (by decide) (by decide) (by decide) (by decide)⟩

theorem isDigit_bounds (c : Char) (h : isDigit c = true) :
    48 ≤ c.toNat ∧ c.toNat ≤ 57 := by
  unfold isDigit at h
  rw [Bool.and_eq_true, decide_eq_true_eq, decide_eq_true_eq] at h
  exact h

theorem digit_ne (c : Char) (h : isDigit c = true) :
    isWS c = false ∧ c ≠ ',' ∧ c ≠ '.' ∧ c ≠ '#' ∧ c ≠ '-' ∧ c ≠ '+' := by
  obtain ⟨h1, h2⟩ := isDigit_bounds c h
  have hne : ∀ d : Char, d.toNat < 48 ∨ 57 < d.toNat → c ≠ d := by
    intro d hd hc
    subst hc
    omega
  refine ⟨?_, hne ',' (by decide), hne '.' (by decide), hne '#' (by decide),
    hne '-' (by decide), hne '+' (by decide)⟩
  unfold isWS
  simp only [Bool.or_eq_false_iff, decide_eq_false_iff_not]
  exact ⟨⟨⟨hne ' ' (by decide), hne '\n' (by decide)⟩, hne '\t' (by decide)⟩,
    hne '\r' (by decide)⟩

theorem charVal_digitChar (d : ℕ) (h : d < 10) : charVal (digitChar d) = d := by
  interval_cases d <;> decide

theorem isDigit_digitChar (d : ℕ) (h : d < 10) : isDigit (digitChar d) = true := by
  interval_cases d <;> decide

theorem natRender_ne_nil (n : ℕ) : natRender n ≠ [] := by
  unfold natRender
  split
  · simp
  · next h =>
      simp only [ne_eq, List.reverse_eq_nil_iff, List.map_eq_nil_iff]
      exact Nat.digits_ne_nil_iff_ne_zero.mpr h

theorem natRender_digits (n : ℕ) : ∀ c ∈ natRender n, isDigit c = true := by
  intro c hc
  unfold natRender at hc
  split at hc
  · simp at hc
    subst hc
    decide
  · rw [List.mem_reverse, List.mem_map] at hc
    obtain ⟨d, hd, rfl⟩ := hc
    exact isDigit_digitChar d (Nat.digits_lt_base (by norm_num) hd)

theorem foldr_digitChar (L : List ℕ) (h : ∀ d ∈ L, d < 10) :
    List.foldr (fun c a => 10 * a + charVal c) 0 (L.map digitChar) =
      Nat.ofDigits 10 L := by
  induction L with
  | nil => rfl
  | cons d t ih =>
      simp only [List.map_cons, List.foldr_cons, Nat.ofDigits_cons]
      rw [ih (fun e he => h e (by simp [he])), charVal_digitChar d (h d (by simp))]
      ring

theorem digitsVal_natRender (n : ℕ) : digitsVal (natRender n) = n := by
  unfold digitsVal natRender
  split
  · next h => subst h; decide
  · rw [List.foldl_reverse]
    have := foldr_digitChar (Nat.digits 10 n)
      (fun d hd => Nat.digits_lt_base (by norm_num) hd)
    calc List.foldr (fun x y => 10 * y + charVal x) 0 ((Nat.digits 10 n).map digitChar)
        = Nat.ofDigits 10 (Nat.digits 10 n) := this
      _ = n := Nat.ofDigits_digits 10 n

theorem natRender_length_le (m k : ℕ) (hk : 1 ≤ k) (h : m < 10 ^ k) :
    (natRender m).length ≤ k := by
  unfold natRender
  split
  · simpa using hk
  · next hm =>
      simp only [List.length_reverse, List.length_map]
      by_contra hlen
      push_neg at hlen
      have h1 : 10 ^ (Nat.digits 10 m).length ≤ 10 * m :=
        Nat.base_pow_length_digits_le 10 m (by norm_num) hm
      have h2 : 10 ^ (k + 1) ≤ 10 ^ (Nat.digits 10 m).length :=
        Nat.pow_le_pow_right (by norm_num) (by omega)
      have h3 : 10 ^ (k + 1) = 10 * 10 ^ k := by ring
      omega

theorem padRender_length (m k : ℕ) (h : (natRender m).length ≤ k) :
    (padRender m k).length = k := by
  unfold padRender
  simp only [List.length_append, List.length_replicate]
  omega

theorem padRender_digits (m k : ℕ) : ∀ c ∈ padRender m k, isDigit c = true := by
  intro c hc
  unfold padRender at hc
  rw [List.mem_append] at hc
  rcases hc with hc | hc
  · rw [List.eq_of_mem_replicate hc]
    decide
  · exact natRender_digits m c hc

theorem foldl_zeros (j : ℕ) (a : ℕ) (ha : a = 0) :
    List.foldl (fun a c => 10 * a + charVal c) a (List.replicate j '0') = 0 := by
  induction j generalizing a with
  | zero => simpa using ha
  | succ j ih =>
      rw [List.replicate_succ, List.foldl_cons]
      exact ih _ (by subst ha; decide)

theorem digitsVal_padRender (m k : ℕ) : digitsVal (padRender m k) = m := by
  unfold padRender digitsVal
  rw [List.foldl_append, foldl_zeros _ _ rfl]
  exact digitsVal_natRender m

theorem no_special_of_all_digits (s : Str) (h : ∀ c ∈ s, isDigit c = true) :
    '.' ∉ s ∧ ',' ∉ s ∧ (∀ c ∈ s, isWS c = false) := by
  refine ⟨fun hc => ?_, fun hc => ?_, fun c hc => (digit_ne c (h c hc)).1⟩
  · have := h _ hc
    revert this
    decide
  · have := h _ hc
    revert this
    decide

theorem dump_body_chars (m k : ℕ) :
    ∀ c ∈ (if k = 0 then natRender m
      else natRender (m / 10 ^ k) ++ '.' :: padRender (m % 10 ^ k) k),
      isDigit c = true ∨ c = '.' := by
  intro c hc
  split at hc
  · exact Or.inl (natRender_digits m c hc)
  · rw [List.mem_append, List.mem_cons] at hc
    rcases hc with hc | hc | hc
    · exact Or.inl (natRender_digits _ c hc)
    · exact Or.inr hc
    · exact Or.inl (padRender_digits _ _ c hc)

theorem dumpRat_chars (q : ℚ) :
    ∀ c ∈ dumpRat q, isDigit c = true ∨ c = '.' ∨ c = '-' := by
  intro c hc
  unfold dumpRat at hc
  cases hdx : decExp q.den with
  | none =>
      rw [hdx] at hc
      simp only [List.mem_singleton] at hc
      subst hc
      exact Or.inl (by decide)
  | some k =>
      rw [hdx] at hc
      dsimp only at hc
      by_cases hneg : q.num < 0
      · rw [if_pos hneg, List.mem_cons] at hc
        rcases hc with hc | hc
        · exact Or.inr (Or.inr hc)
        · rcases dump_body_chars _ k c hc with h | h
          · exact Or.inl h
          · exact Or.inr (Or.inl h)
      · rw [if_neg hneg] at hc
        rcases dump_body_chars _ k c hc with h | h
        · exact Or.inl h
        · exact Or.inr (Or.inl h)

theorem dumpRat_clean (q : ℚ) :
    ∀ c ∈ dumpRat q, c ≠ ',' ∧ isWS c = false ∧ c ≠ '#' := by
  intro c hc
  rcases dumpRat_chars q c hc with h | h | h
  · exact ⟨(digit_ne c h).2.1, (digit_ne c h).1, (digit_ne c h).2.2.2.1⟩
  · subst h
    exact ⟨by decide, by decide, by decide⟩
  · subst h
    exact ⟨by decide, by decide, by decide⟩

theorem dumpRat_ne_nil (q : ℚ) : dumpRat q ≠ [] := by
  unfold dumpRat
  cases hdx : decExp q.den with
  | none => simp
  | some k =>
      dsimp only
      split
      · simp
      · split <;> simp [natRender_ne_nil]

theorem dropWhile_eq_self_of_false (p : Char → Bool) (s : Str)
    (h : ∀ c ∈ s, p c = false) : s.dropWhile p = s := by
  cases s with
  | nil => rfl
  | cons c t => simp [List.dropWhile_cons, h c (by simp)]

theorem trim_eq_self_of_no_ws (s : Str) (h : ∀ c ∈ s, isWS c = false) :
    trim s = s := by
  unfold trim trimLeft
  rw [dropWhile_eq_self_of_false _ _ (fun c hc => h c (List.mem_reverse.mp hc)),
    List.reverse_reverse, dropWhile_eq_self_of_false _ _ h]

theorem splitOnChar_cons (d c : Char) (s : Str) :
    splitOnChar d (c :: s) =
      if c = d then [] :: splitOnChar d s
      else match splitOnChar d s with
        | a :: r => (c :: a) :: r
        | [] => [[c]] := rfl

theorem splitOnChar_ne_nil (d : Char) (s : Str) : splitOnChar d s ≠ [] := by
  induction s with
  | nil => simp [splitOnChar]
  | cons c t ih =>
      rw [splitOnChar_cons]
      split_ifs
      · simp
      · cases h : splitOnChar d t with
        | nil => exact absurd h ih
        | cons a r => simp

theorem splitOnChar_no_delim (d : Char) (s : Str) (h : d ∉ s) :
    splitOnChar d s = [s] := by
  induction s with
  | nil => rfl
  | cons c t ih =>
      rw [splitOnChar_cons, if_neg (by intro hc; exact h (by simp [hc])),
        ih (fun hm => h (by simp [hm]))]

theorem splitOnChar_append (d : Char) (a rest : Str) (h : d ∉ a) :
    splitOnChar d (a ++ d :: rest) = a :: splitOnChar d rest := by
  induction a with
  | nil => simp [splitOnChar_cons]
  | cons c a' ih =>
      rw [List.cons_append, splitOnChar_cons,
        if_neg (by intro hc; exact h (by simp [hc])),
        ih (fun hm => h (by simp [hm]))]

theorem stripSign_of_digit (c : Char) (r : Str) (h : isDigit c = true) :
    stripSign (c :: r) = (false, c :: r) := by
  show (if c = '-' then (true, r) else if c = '+' then (false, r) else (false, c :: r)) = _
  rw [if_neg (digit_ne c h).2.2.2.2.1, if_neg (digit_ne c h).2.2.2.2.2]

theorem decExp_dvd (den k : ℕ) (h : decExp den = some k) : den ∣ 10 ^ k := by
  unfold decExp at h
  have hp := List.find?_some h
  simp only [decide_eq_true_eq] at hp
  exact Nat.dvd_of_mod_eq_zero hp

theorem dumpRat_eq (q : ℚ) (k : ℕ) (hk : decExp q.den = some k) :
    dumpRat q = (if q.num < 0 then ['-'] else []) ++
      (if k = 0 then natRender (q.num.natAbs * (10 ^ k / q.den))
       else natRender (q.num.natAbs * (10 ^ k / q.den) / 10 ^ k) ++
         '.' :: padRender (q.num.natAbs * (10 ^ k / q.den) % 10 ^ k) k) := by
  unfold dumpRat
  rw [hk]
  dsimp only
  split_ifs <;> simp_all

theorem num_eq_mul_den (q : ℚ) : (q.num : ℚ) = q * q.den := by
  have hq := Rat.num_div_den q
  have hden0 : (q.den : ℚ) ≠ 0 := by
    exact_mod_cast q.den_nz
  rw [div_eq_iff hden0] at hq
  exact hq

theorem m_div_pow_pos (q : ℚ) (k : ℕ) (hdvd : q.den ∣ 10 ^ k) (hpos : ¬ q.num < 0) :
    ((q.num.natAbs * (10 ^ k / q.den) : ℕ) : ℚ) / 10 ^ k = q := by
  have hden0 : (q.den : ℚ) ≠ 0 := by exact_mod_cast q.den_nz
  have hm : (q.num.natAbs * (10 ^ k / q.den)) * q.den = q.num.natAbs * 10 ^ k := by
    rw [mul_assoc, Nat.div_mul_cancel hdvd]
  have hcast : ((q.num.natAbs * (10 ^ k / q.den) : ℕ) : ℚ) * q.den =
      (q.num.natAbs : ℚ) * 10 ^ k := by
    exact_mod_cast congrArg (fun n : ℕ => (n : ℚ)) hm
  have hnum : (q.num.natAbs : ℚ) = (q.num : ℚ) := by
    rw [Int.cast_natAbs]
    exact_mod_cast abs_of_nonneg (show (0 : ℤ) ≤ q.num by omega)
  rw [hnum, num_eq_mul_den] at hcast
  rw [div_eq_iff (by positivity : ((10 : ℚ) ^ k) ≠ 0)]
  have h10 : (q : ℚ) * ↑q.den * 10 ^ k = q * 10 ^ k * ↑q.den := by ring
  rw [h10] at hcast
  exact mul_right_cancel₀ hden0 hcast

theorem m_div_pow_neg (q : ℚ) (k : ℕ) (hdvd : q.den ∣ 10 ^ k) (hneg : q.num < 0) :
    ((q.num.natAbs * (10 ^ k / q.den) : ℕ) : ℚ) / 10 ^ k = -q := by
  have hden0 : (q.den : ℚ) ≠ 0 := by exact_mod_cast q.den_nz
  have hm : (q.num.natAbs * (10 ^ k / q.den)) * q.den = q.num.natAbs * 10 ^ k := by
    rw [mul_assoc, Nat.div_mul_cancel hdvd]
  have hcast : ((q.num.natAbs * (10 ^ k / q.den) : ℕ) : ℚ) * q.den =
      (q.num.natAbs : ℚ) * 10 ^ k := by
    exact_mod_cast congrArg (fun n : ℕ => (n : ℚ)) hm
  have hnum : (q.num.natAbs : ℚ) = -(q.num : ℚ) := by
    rw [Int.cast_natAbs]
    exact_mod_cast abs_of_neg hneg
  rw [hnum, num_eq_mul_den] at hcast
  rw [div_eq_iff (by positivity : ((10 : ℚ) ^ k) ≠ 0)]
  have h10 : -((q : ℚ) * ↑q.den) * 10 ^ k = -q * 10 ^ k * ↑q.den := by ring
  rw [h10] at hcast
  exact mul_right_cancel₀ hden0 hcast

theorem stripSign_minus (r : Str) : stripSign ('-' :: r) = (true, r) := by
  show (if '-' = '-' then ((true : Bool), r)
    else if '-' = '+' then ((false : Bool), r) else (false, '-' :: r)) = (true, r)
  rw [if_pos rfl]

theorem parseFloat_single (s a : Str)
    (h : splitOnChar '.' (stripSign (trim s)).2 = [a])
    (hne : a ≠ []) (hdig : ∀ c ∈ a, isDigit c = true) :
    parseFloat s =
      some (if (stripSign (trim s)).1 then -(digitsVal a : ℚ) else (digitsVal a : ℚ)) := by
  unfold parseFloat
  dsimp only
  rw [h]
  show (if (decide ¬a = [] && a.all isDigit) = true then _ else _) = _
  rw [if_pos (by simp [hne, List.all_eq_true.mpr hdig])]

theorem parseFloat_pair (s a b : Str)
    (h : splitOnChar '.' (stripSign (trim s)).2 = [a, b])
    (hne : a ≠ []) (hdiga : ∀ c ∈ a, isDigit c = true)
    (hdigb : ∀ c ∈ b, isDigit c = true) :
    parseFloat s =
      some (if (stripSign (trim s)).1
        then -((digitsVal a : ℚ) + (digitsVal b : ℚ) / 10 ^ b.length)
        else (digitsVal a : ℚ) + (digitsVal b : ℚ) / 10 ^ b.length) := by
  unfold parseFloat
  dsimp only
  rw [h]
  show (if ((decide ¬a = [] || decide ¬b = []) && a.all isDigit && b.all isDigit) = true
      then _ else _) = _
  rw [if_pos (by simp [hne, List.all_eq_true.mpr hdiga, List.all_eq_true.mpr hdigb])]

theorem parseFloat_dumpRat (q : ℚ) (h : DecRepr q) : parseFloat (dumpRat q) = some q := by
  obtain ⟨k, hk⟩ := Option.isSome_iff_exists.mp h
  have hdvd := decExp_dvd q.den k hk
  have htrim : trim (dumpRat q) = dumpRat q :=
    trim_eq_self_of_no_ws _ (fun c hc => (dumpRat_clean q c hc).2.1)
  have hde := dumpRat_eq q k hk
  have hpow : ((10 : ℚ) ^ k) ≠ 0 := by positivity
  by_cases hk0 : k = 0
  · subst hk0
    rw [if_pos rfl] at hde
    by_cases hneg : q.num < 0
    · rw [if_pos hneg] at hde
      have hdump : dumpRat q = '-' :: natRender (q.num.natAbs * (10 ^ 0 / q.den)) := by
        simpa using hde
      have hstrip : stripSign (trim (dumpRat q)) =
          (true, natRender (q.num.natAbs * (10 ^ 0 / q.den))) := by
        rw [htrim, hdump, stripSign_minus]
      rw [parseFloat_single (dumpRat q) (natRender (q.num.natAbs * (10 ^ 0 / q.den)))
        (by rw [hstrip]
            exact splitOnChar_no_delim '.' _ (no_special_of_all_digits _ (natRender_digits _)).1)
        (natRender_ne_nil _) (natRender_digits _)]
      rw [hstrip]
      simp only [if_true]
      rw [digitsVal_natRender]
      have hden1 : q.den = 1 := Nat.dvd_one.mp (by simpa using hdvd)
      have hv := m_div_pow_neg q 0 hdvd hneg
      simp only [hden1, pow_zero, Nat.div_one, mul_one, div_one] at hv ⊢
      rw [hv]
      simp
    · rw [if_neg hneg] at hde
      have hdump : dumpRat q = natRender (q.num.natAbs * (10 ^ 0 / q.den)) := by
        simpa using hde
      have hhead : ∃ c r, natRender (q.num.natAbs * (10 ^ 0 / q.den)) = c :: r ∧
          isDigit c = true := by
        cases hN : natRender (q.num.natAbs * (10 ^ 0 / q.den)) with
        | nil => exact absurd hN (natRender_ne_nil _)
        | cons c r => exact ⟨c, r, rfl, natRender_digits _ c (by rw [hN]; simp)⟩
      obtain ⟨c, r, hcr, hcd⟩ := hhead
      have hstrip : stripSign (trim (dumpRat q)) =
          (false, natRender (q.num.natAbs * (10 ^ 0 / q.den))) := by
        rw [htrim, hdump, hcr, stripSign_of_digit c r hcd, ← hcr]
      rw [parseFloat_single (dumpRat q) (natRender (q.num.natAbs * (10 ^ 0 / q.den)))
        (by rw [hstrip]
            exact splitOnChar_no_delim '.' _ (no_special_of_all_digits _ (natRender_digits _)).1)
        (natRender_ne_nil _) (natRender_digits _)]
      rw [hstrip]
      simp only [Bool.false_eq_true, if_false]
      rw [digitsVal_natRender]
      have hden1 : q.den = 1 := Nat.dvd_one.mp (by simpa using hdvd)
      have hv := m_div_pow_pos q 0 hdvd hneg
      simp only [hden1, pow_zero, Nat.div_one, mul_one, div_one] at hv ⊢
      rw [hv]
  · have hk1 : 1 ≤ k := by omega
    rw [if_neg hk0] at hde
    have hmodlt : q.num.natAbs * (10 ^ k / q.den) % 10 ^ k < 10 ^ k :=
      Nat.mod_lt _ (by positivity)
    have hblen : (padRender (q.num.natAbs * (10 ^ k / q.den) % 10 ^ k) k).length = k :=
      padRender_length _ _ (natRender_length_le _ _ hk1 hmodlt)
    have hsplitB : splitOnChar '.'
        (natRender (q.num.natAbs * (10 ^ k / q.den) / 10 ^ k) ++
          '.' :: padRender (q.num.natAbs * (10 ^ k / q.den) % 10 ^ k) k) =
        [natRender (q.num.natAbs * (10 ^ k / q.den) / 10 ^ k),
          padRender (q.num.natAbs * (10 ^ k / q.den) % 10 ^ k) k] := by
      rw [splitOnChar_append '.' _ _ (no_special_of_all_digits _ (natRender_digits _)).1,
        splitOnChar_no_delim '.' _ (no_special_of_all_digits _ (padRender_digits _ _)).1]
    have hval : (digitsVal (natRender (q.num.natAbs * (10 ^ k / q.den) / 10 ^ k)) : ℚ) +
        (digitsVal (padRender (q.num.natAbs * (10 ^ k / q.den) % 10 ^ k) k) : ℚ) /
          10 ^ (padRender (q.num.natAbs * (10 ^ k / q.den) % 10 ^ k) k).length =
        ((q.num.natAbs * (10 ^ k / q.den) : ℕ) : ℚ) / 10 ^ k := by
      rw [hblen, digitsVal_natRender, digitsVal_padRender]
      have hdm : ((q.num.natAbs * (10 ^ k / q.den)) / 10 ^ k) * 10 ^ k +
          (q.num.natAbs * (10 ^ k / q.den)) % 10 ^ k =
          q.num.natAbs * (10 ^ k / q.den) := by
        rw [Nat.mul_comm ((q.num.natAbs * (10 ^ k / q.den)) / 10 ^ k) (10 ^ k)]
        exact Nat.div_add_mod _ _
      have hdmq : ((q.num.natAbs * (10 ^ k / q.den) / 10 ^ k : ℕ) : ℚ) * 10 ^ k +
          ((q.num.natAbs * (10 ^ k / q.den) % 10 ^ k : ℕ) : ℚ) =
          ((q.num.natAbs * (10 ^ k / q.den) : ℕ) : ℚ) := by
        exact_mod_cast hdm
      rw [eq_div_iff hpow, add_mul, div_mul_cancel₀ _ hpow]
      exact hdmq
    by_cases hneg : q.num < 0
    · rw [if_pos hneg] at hde
      have hdump : dumpRat q = '-' ::
          (natRender (q.num.natAbs * (10 ^ k / q.den) / 10 ^ k) ++
            '.' :: padRender (q.num.natAbs * (10 ^ k / q.den) % 10 ^ k) k) := by
        simpa using hde
      have hstrip : stripSign (trim (dumpRat q)) =
          (true, natRender (q.num.natAbs * (10 ^ k / q.den) / 10 ^ k) ++
            '.' :: padRender (q.num.natAbs * (10 ^ k / q.den) % 10 ^ k) k) := by
        rw [htrim, hdump, stripSign_minus]
      rw [parseFloat_pair (dumpRat q) _ _ (by rw [hstrip]; exact hsplitB)
        (natRender_ne_nil _) (natRender_digits _) (padRender_digits _ _)]
      rw [hstrip]
      simp only [if_true]
      rw [hval, m_div_pow_neg q k hdvd hneg]
      simp
    · rw [if_neg hneg] at hde
      have hdump : dumpRat q =
          natRender (q.num.natAbs * (10 ^ k / q.den) / 10 ^ k) ++
            '.' :: padRender (q.num.natAbs * (10 ^ k / q.den) % 10 ^ k) k := by
        simpa using hde
      have hhead : ∃ c r, natRender (q.num.natAbs * (10 ^ k / q.den) / 10 ^ k) = c :: r ∧
          isDigit c = true := by
        cases hN : natRender (q.num.natAbs * (10 ^ k / q.den) / 10 ^ k) with
        | nil => exact absurd hN (natRender_ne_nil _)
        | cons c r => exact ⟨c, r, rfl, natRender_digits _ c (by rw [hN]; simp)⟩
      obtain ⟨c, r, hcr, hcd⟩ := hhead
      have hstrip : stripSign (trim (dumpRat q)) =
          (false, natRender (q.num.natAbs * (10 ^ k / q.den) / 10 ^ k) ++
            '.' :: padRender (q.num.natAbs * (10 ^ k / q.den) % 10 ^ k) k) := by
        rw [htrim, hdump, hcr, List.cons_append, stripSign_of_digit c _ hcd,
          ← List.cons_append, ← hcr]
      rw [parseFloat_pair (dumpRat q) _ _ (by rw [hstrip]; exact hsplitB)
        (natRender_ne_nil _) (natRender_digits _) (padRender_digits _ _)]
      rw [hstrip]
      simp only [Bool.false_eq_true, if_false]
      rw [hval, m_div_pow_pos q k hdvd hneg]

theorem mem_joinWith (d : Char) (l : List Str) (c : Char) (hc : c ∈ joinWith d l) :
    c = d ∨ ∃ f ∈ l, c ∈ f := by
  induction l with
  | nil => cases hc
  | cons a rest ih =>
      cases rest with
      | nil =>
          exact Or.inr ⟨a, by simp, hc⟩
      | cons b t =>
          rw [show joinWith d (a :: b :: t) = a ++ d :: joinWith d (b :: t) from rfl,
            List.mem_append, List.mem_cons] at hc
          rcases hc with hc | hc | hc
          · exact Or.inr ⟨a, by simp, hc⟩
          · exact Or.inl hc
          · rcases ih hc with h | ⟨f, hf, hcf⟩
            · exact Or.inl h
            · exact Or.inr ⟨f, by simp [hf], hcf⟩

theorem splitOnChar_joinWith (d : Char) (l : List Str) (hne : l ≠ [])
    (h : ∀ f ∈ l, d ∉ f) : splitOnChar d (joinWith d l) = l := by
  induction l with
  | nil => exact absurd rfl hne
  | cons a rest ih =>
      cases rest with
      | nil => exact splitOnChar_no_delim d a (h a (by simp))
      | cons b t =>
          rw [show joinWith d (a :: b :: t) = a ++ d :: joinWith d (b :: t) from rfl,
            splitOnChar_append d a _ (h a (by simp)),
            ih (by simp) (fun f hf => h f (by simp [hf]))]

theorem clean_line_joinWith (l : List Str) (hne : l ≠ [])
    (h : ∀ f ∈ l, ∀ c ∈ f, isWS c = false ∧ c ≠ ',') :
    clean_line (joinWith ',' l) ',' = l.filter (fun f => f ≠ []) := by
  unfold clean_line
  have htr : trim (joinWith ',' l) = joinWith ',' l := by
    apply trim_eq_self_of_no_ws
    intro c hc
    rcases mem_joinWith ',' l c hc with rfl | ⟨f, hf, hcf⟩
    · decide
    · exact (h f hf c hcf).1
  rw [htr, splitOnChar_joinWith ',' l hne (fun f hf hm => (h f hf ',' hm).2 rfl)]
  rw [List.map_congr_left]
  · exact List.map_id _
  · intro f hf
    exact trim_eq_self_of_no_ws f
      (fun c hc => (h f (List.mem_of_mem_filter hf) c hc).1)

theorem xyaRow_join (p : ℚ × ℚ) (attrs : Option Attrs) (i : ℕ) :
    xyaRow ',' p attrs i = joinWith ','
      ([dumpRat p.1, dumpRat p.2] ++
        (attrs.getD []).map (fun pr => dumpRat (pr.2.getD i 0)) ++
        (if attrs = some [] then [[]] else [])) := by
  cases attrs with
  | none => simp [xyaRow, xyaRowTail, joinWith]
  | some l =>
      cases l with
      | nil => simp [xyaRow, xyaRowTail, joinWith]
      | cons v vs => simp [xyaRow, xyaRowTail, joinWith]

theorem clean_line_xyaRow (p : ℚ × ℚ) (attrs : Option Attrs) (i : ℕ) :
    clean_line (xyaRow ',' p attrs i) ',' =
      dumpRat p.1 :: dumpRat p.2 ::
        (attrs.getD []).map (fun pr => dumpRat (pr.2.getD i 0)) := by
  rw [xyaRow_join, clean_line_joinWith]
  · rw [List.filter_append, List.filter_append]
    have h1 : List.filter (fun f => decide (f ≠ [])) [dumpRat p.1, dumpRat p.2] =
        [dumpRat p.1, dumpRat p.2] :=
      List.filter_eq_self.mpr (by
        intro f hf
        rcases List.mem_pair.mp hf with rfl | rfl <;> simp [dumpRat_ne_nil])
    have h2 : List.filter (fun f => decide (f ≠ []))
        ((attrs.getD []).map (fun pr => dumpRat (pr.2.getD i 0))) =
        (attrs.getD []).map (fun pr => dumpRat (pr.2.getD i 0)) :=
      List.filter_eq_self.mpr (by
        intro f hf
        rw [List.mem_map] at hf
        obtain ⟨pr, _, rfl⟩ := hf
        simp [dumpRat_ne_nil])
    have h3 : List.filter (fun f => decide (f ≠ []))
        (if attrs = some [] then [[]] else []) = ([] : List Str) := by
      split <;> simp
    rw [h1, h2, h3]
    simp
  · simp
  · intro f hf c hc
    rw [List.mem_append, List.mem_append] at hf
    rcases hf with (hf | hf) | hf
    · rcases List.mem_pair.mp hf with rfl | rfl
      · exact ⟨(dumpRat_clean p.1 c hc).2.1, (dumpRat_clean p.1 c hc).1⟩
      · exact ⟨(dumpRat_clean p.2 c hc).2.1, (dumpRat_clean p.2 c hc).1⟩
    · rw [List.mem_map] at hf
      obtain ⟨pr, _, rfl⟩ := hf
      exact ⟨(dumpRat_clean _ c hc).2.1, (dumpRat_clean _ c hc).1⟩
    · split at hf
      · rw [List.mem_singleton] at hf
        subst hf
        cases hc
      · cases hf

theorem xyaRow_head (p : ℚ × ℚ) (attrs : Option Attrs) (i : ℕ) :
    (xyaRow ',' p attrs i).head? ≠ some '#' := by
  unfold xyaRow
  cases hN : dumpRat p.1 with
  | nil => exact absurd hN (dumpRat_ne_nil _)
  | cons c r =>
      simp only [List.cons_append, List.head?_cons]
      intro hc
      obtain rfl : c = '#' := by injection hc
      exact (dumpRat_clean p.1 '#' (by rw [hN]; simp)).2.2 rfl

theorem parseFloats_map_dump (vs : List ℚ) (h : ∀ v ∈ vs, DecRepr v) :
    parseFloats (vs.map dumpRat) = some vs := by
  induction vs with
  | nil => rfl
  | cons v t ih =>
      show (match parseFloat (dumpRat v), parseFloats (t.map dumpRat) with
        | some v, some vs => some (v :: vs)
        | _, _ => none) = _
      rw [parseFloat_dumpRat v (h v (by simp)), ih (fun w hw => h w (by simp [hw]))]

theorem take_succ_getD {α : Type} (l : List α) (d : α) (j : ℕ) (h : j < l.length) :
    l.take j ++ [l.getD j d] = l.take (j + 1) := by
  rw [List.take_succ]
  congr 1
  rw [List.getElem?_eq_getElem h]
  simp [List.getD_eq_getElem?_getD, List.getElem?_eq_getElem h]

theorem dictAppend_not_head (k' k : Str) (w : List ℚ) (v : ℚ) (d : Attrs)
    (h : k' ≠ k) : dictAppend ((k', w) :: d) k v = (k', w) :: dictAppend d k v := by
  simp [dictAppend, h]

theorem appendVals_skip (k : Str) (w : List ℚ) (names : List Str) (vals : List ℚ)
    (d : Attrs) (h : k ∉ names) :
    appendVals ((k, w) :: d) names vals = (k, w) :: appendVals d names vals := by
  induction names generalizing vals d with
  | nil => simp [appendVals]
  | cons n ns ih =>
      cases vals with
      | nil => simp [appendVals]
      | cons v vs =>
          show appendVals (dictAppend ((k, w) :: d) n v) ns vs = _
          rw [dictAppend_not_head k n w v d (by intro hc; exact h (by simp [hc]))]
          exact ih vs _ (fun hm => h (by simp [hm]))

theorem appendVals_nil_start (l : Attrs)
    (hnd : (l.map (fun p => p.1)).Nodup) (hlen : ∀ p ∈ l, 0 < p.2.length) :
    appendVals [] (l.map (fun p => p.1)) (l.map (fun p => p.2.getD 0 0)) =
      l.map (fun p => (p.1, p.2.take 1)) := by
  induction l with
  | nil => rfl
  | cons p rest ih =>
      simp only [List.map_cons]
      show appendVals (dictAppend [] p.1 (p.2.getD 0 0)) (rest.map (fun p => p.1))
        (rest.map (fun p => p.2.getD 0 0)) = _
      show appendVals [(p.1, [p.2.getD 0 0])] (rest.map (fun p => p.1))
        (rest.map (fun p => p.2.getD 0 0)) = _
      rw [appendVals_skip _ _ _ _ _ (by
        simp only [List.nodup_cons, List.map_cons] at hnd
        exact hnd.1)]
      rw [ih (by simp only [List.map_cons, List.nodup_cons] at hnd; exact hnd.2)
        (fun q hq => hlen q (by simp [hq]))]
      have h1 : [p.2.getD 0 0] = p.2.take 1 := by
        have := take_succ_getD p.2 0 0 (hlen p (by simp))
        simpa using this
      rw [h1]

theorem appendVals_cols (l : Attrs) (j : ℕ)
    (hnd : (l.map (fun p => p.1)).Nodup) (hlen : ∀ p ∈ l, j < p.2.length) :
    appendVals (l.map (fun p => (p.1, p.2.take j))) (l.map (fun p => p.1))
      (l.map (fun p => p.2.getD j 0)) = l.map (fun p => (p.1, p.2.take (j + 1))) := by
  induction l with
  | nil => rfl
  | cons p rest ih =>
      simp only [List.map_cons]
      show appendVals (dictAppend ((p.1, p.2.take j) :: rest.map (fun p => (p.1, p.2.take j)))
        p.1 (p.2.getD j 0)) (rest.map (fun p => p.1)) (rest.map (fun p => p.2.getD j 0)) = _
      rw [show dictAppend ((p.1, p.2.take j) :: rest.map (fun p => (p.1, p.2.take j)))
          p.1 (p.2.getD j 0) =
          (p.1, p.2.take j ++ [p.2.getD j 0]) :: rest.map (fun p => (p.1, p.2.take j)) by
        simp [dictAppend]]
      rw [take_succ_getD p.2 0 j (hlen p (by simp))]
      rw [appendVals_skip _ _ _ _ _ (by
        simp only [List.nodup_cons, List.map_cons] at hnd
        exact hnd.1)]
      rw [ih (by simp only [List.map_cons, List.nodup_cons] at hnd; exact hnd.2)
        (fun q hq => hlen q (by simp [hq]))]

theorem readRows_cons (names : List Str) (acc : List (ℚ × ℚ)) (dict : Attrs)
    (line : Str) (rest : List Str) (x y : ℚ) (vals : List ℚ)
    (hclean : clean_line line ',' = dumpRat x :: dumpRat y :: vals.map dumpRat)
    (hhead : line.head? ≠ some '#')
    (hx : DecRepr x) (hy : DecRepr y)
    (hvals : ∀ v ∈ vals, DecRepr v)
    (hlen : names.length = vals.length) :
    readRows ',' names acc dict (line :: rest) =
      readRows ',' names (acc ++ [(x, y)]) (appendVals dict names vals) rest := by
  conv_lhs => unfold readRows
  rw [hclean, if_pos ⟨by simp, hhead⟩]
  simp only [List.getD_cons_zero, List.getD_cons_succ, List.drop_succ_cons,
    List.drop_zero]
  rw [parseFloat_dumpRat x hx, parseFloat_dumpRat y hy]
  dsimp only
  rw [if_neg (by simp [hlen]), parseFloats_map_dump vals hvals]

theorem getD_mem {α : Type} (l : List α) (j : ℕ) (d : α) (h : j < l.length) :
    l.getD j d ∈ l := by
  rw [List.getD_eq_getElem?_getD, List.getElem?_eq_getElem h]
  exact List.getElem_mem h

theorem readRows_written (P : List (ℚ × ℚ)) (oa : Option Attrs)
    (hP : ∀ p ∈ P, DecRepr p.1 ∧ DecRepr p.2)
    (hnd : ((oa.getD []).map (fun p => p.1)).Nodup)
    (hgl : ∀ pr ∈ oa.getD [], pr.2.length = P.length ∧ ∀ v ∈ pr.2, DecRepr v) :
    ∀ m j, j + m = P.length →
      readRows ',' ((oa.getD []).map (fun p => p.1)) (P.take j)
        (if j = 0 then [] else (oa.getD []).map (fun p => (p.1, p.2.take j)))
        ((List.range' j m).map (fun i => xyaRow ',' (P.getD i (0, 0)) oa i)) =
      .ok (P, (if P.length = 0 then [] else
        (oa.getD []).map (fun p => (p.1, p.2.take P.length))), none) := by
  intro m
  induction m with
  | zero =>
      intro j hj
      simp only [Nat.add_zero] at hj
      subst hj
      rw [List.range'_zero, List.map_nil]
      conv_lhs => unfold readRows
      rw [List.take_length]
  | succ m ih =>
      intro j hj
      have hjlt : j < P.length := by omega
      rw [List.range'_succ, List.map_cons]
      have hmem : P.getD j (0, 0) ∈ P := getD_mem P j (0, 0) hjlt
      rw [readRows_cons _ _ _ _ _ (P.getD j (0, 0)).1 (P.getD j (0, 0)).2
        ((oa.getD []).map (fun pr => pr.2.getD j 0))
        (by rw [clean_line_xyaRow, List.map_map]; rfl)
        (xyaRow_head _ oa j)
        (hP _ hmem).1 (hP _ hmem).2
        (by
          intro v hv
          rw [List.mem_map] at hv
          obtain ⟨pr, hpr, rfl⟩ := hv
          exact (hgl pr hpr).2 _ (getD_mem _ j 0 (by rw [(hgl pr hpr).1]; exact hjlt)))
        (by simp)]
      rw [Prod.mk.eta, take_succ_getD P (0, 0) j hjlt]
      have hdict : appendVals
          (if j = 0 then [] else (oa.getD []).map (fun p => (p.1, p.2.take j)))
          ((oa.getD []).map (fun p => p.1))
          ((oa.getD []).map (fun pr => pr.2.getD j 0)) =
          (if j + 1 = 0 then [] else
            (oa.getD []).map (fun p => (p.1, p.2.take (j + 1)))) := by
        by_cases hj0 : j = 0
        · subst hj0
          rw [if_pos rfl, if_neg (by omega)]
          exact appendVals_nil_start _ hnd
            (fun p hp => by rw [(hgl p hp).1]; omega)
        · rw [if_neg hj0, if_neg (by omega)]
          exact appendVals_cols _ j hnd
            (fun p hp => by rw [(hgl p hp).1]; exact hjlt)
      rw [hdict]
      exact ih (j + 1) (by omega)

theorem goodName_spec (s : Str) (h : goodName s = true) :
    s ≠ [] ∧ ∀ c ∈ s, isWS c = false ∧ c ≠ ',' := by
  unfold goodName at h
  rw [Bool.and_eq_true, decide_eq_true_eq, List.all_eq_true] at h
  refine ⟨h.1, fun c hc => ?_⟩
  have hc2 := h.2 c hc
  rw [Bool.and_eq_true, Bool.not_eq_true', decide_eq_true_eq] at hc2
  exact hc2

theorem clean_line_title (oa : Option Attrs)
    (hgood : ∀ pr ∈ oa.getD [], goodName pr.1 = true) :
    clean_line (xyaTitleLine ',' oa) ',' = (oa.getD []).map (fun p => p.1) := by
  cases oa with
  | none => rfl
  | some l =>
      cases l with
      | nil => rfl
      | cons pr rest =>
          show clean_line (joinWith ',' ((pr :: rest).map (fun p => p.1))) ',' = _
          rw [clean_line_joinWith _ (by simp) (by
            intro f hf c hc
            rw [List.mem_map] at hf
            obtain ⟨q, hq, rfl⟩ := hf
            exact (goodName_spec q.1 (hgood q hq)).2 c hc)]
          exact List.filter_eq_self.mpr (by
            intro f hf
            rw [List.mem_map] at hf
            obtain ⟨q, hq, rfl⟩ := hf
            simp [(goodName_spec q.1 (hgood q hq)).1])

theorem gsAbsPoints_length (g : Geospatial_data) :
    (gsAbsPoints g).length = g.data_points.length := by
  unfold gsAbsPoints get_absolute
  split <;> simp

theorem get_absolute_default (pts : List (ℚ × ℚ)) :
    get_absolute defaultGeoRef pts = pts := by
  unfold get_absolute
  rw [if_pos (by unfold is_absolute defaultGeoRef atol; norm_num)]

theorem gsAttrLookup_getD (g : Geospatial_data) (k : Str) :
    gsAttrLookup g k = attrLookup k (g.attributes.getD []) := by
  unfold gsAttrLookup
  cases g.attributes <;> rfl

theorem read_xya_written (g : Geospatial_data)
    (hne : g.data_points ≠ [])
    (hP : ∀ p ∈ gsAbsPoints g, DecRepr p.1 ∧ DecRepr p.2)
    (hnd : ((g.attributes.getD []).map (fun p => p.1)).Nodup)
    (hgood : ∀ pr ∈ g.attributes.getD [], goodName pr.1 = true)
    (hgl : ∀ pr ∈ g.attributes.getD [],
      pr.2.length = (gsAbsPoints g).length ∧ ∀ v ∈ pr.2, DecRepr v) :
    read_xya_file (export_xya_absolute g) ',' =
      .ok (gsAbsPoints g, g.attributes.getD [], none) := by
  have hrr := readRows_written (gsAbsPoints g) g.attributes hP hnd hgl
    (gsAbsPoints g).length 0 (by omega)
  rw [if_pos rfl] at hrr
  rw [List.take_zero] at hrr
  rw [if_neg (by
    rw [gsAbsPoints_length]
    simpa using hne)] at hrr
  have hdictid : (g.attributes.getD []).map
      (fun p => (p.1, p.2.take (gsAbsPoints g).length)) = g.attributes.getD [] := by
    rw [List.map_congr_left (fun p hp => by
      rw [List.take_of_length_le (le_of_eq (hgl p hp).1), Prod.mk.eta])]
    exact List.map_id _
  rw [hdictid] at hrr
  unfold export_xya_absolute write_xya_file read_xya_file
  dsimp only
  rw [List.append_nil]
  rw [clean_line_title g.attributes hgood]
  rw [List.range_eq_range']
  rw [hrr]
  rfl

theorem gsImport_xya_written (g : Geospatial_data)
    (hne : g.data_points ≠ [])
    (hP : ∀ p ∈ gsAbsPoints g, DecRepr p.1 ∧ DecRepr p.2)
    (hnd : ((g.attributes.getD []).map (fun p => p.1)).Nodup)
    (hgood : ∀ pr ∈ g.attributes.getD [], goodName pr.1 = true)
    (hgl : ∀ pr ∈ g.attributes.getD [],
      pr.2.length = (gsAbsPoints g).length ∧ ∀ v ∈ pr.2, DecRepr v) :
    gsImport_xya (export_xya_absolute g) =
      .ok ⟨gsAbsPoints g, some (g.attributes.getD []), defaultGeoRef⟩ := by
  have hr := read_xya_written g hne hP hnd hgood hgl
  have hne' : gsAbsPoints g ≠ [] := by
    intro hc
    apply hne
    have := gsAbsPoints_length g
    rw [hc] at this
    exact List.length_eq_zero.mp this.symm
  unfold gsImport_xya import_points_file_xya
  rw [hr]
  dsimp only
  unfold gsFromImport
  rw [if_neg (by simpa using hne')]
  rfl

theorem gsImport_pts_written (g : Geospatial_data)
    (hne : g.data_points ≠ []) :
    gsImport_pts (export_pts_absolute g) =
      .ok ⟨gsAbsPoints g, some (g.attributes.getD []), defaultGeoRef⟩ := by
  have hne' : gsAbsPoints g ≠ [] := by
    intro hc
    apply hne
    have := gsAbsPoints_length g
    rw [hc] at this
    exact List.length_eq_zero.mp this.symm
  unfold gsImport_pts export_pts_absolute write_pts_file read_pts_file gsFromImport
  rw [if_neg (by simpa using hne')]
  rfl

/-- Claim C6: exporting a point set with `export_points_file` (default
`absolute=True`) to the text `.xya` format or the structured `.pts` format
and importing the written file again yields a point set with the same
absolute points and the same attribute values.  Hypotheses: at least one
point (an empty export re-imports as a rank-1 empty array and fails the
shape assert), absolute coordinates and attribute values exactly
representable as decimal literals (the embedded image of printed doubles),
and well-formed distinct attribute names with the length invariant. -/
theorem export_import_points_file_roundtrip (g : Geospatial_data)
    (hne : g.data_points ≠ [])
    (hdec : ptsDecRepr (gsAbsPoints g))
    (hattrs : xyaAttrsOK (g.attributes.getD []) g.data_points.length) :
    (∃ gx, gsImport_xya (export_xya_absolute g) = .ok gx ∧
      gsAbsPoints gx = gsAbsPoints g ∧
      ∀ k, gsAttrLookup gx k = gsAttrLookup g k) ∧
    (∃ gp, gsImport_pts (export_pts_absolute g) = .ok gp ∧
      gsAbsPoints gp = gsAbsPoints g ∧
      ∀ k, gsAttrLookup gp k = gsAttrLookup g k) := by
  obtain ⟨hnd, hall⟩ := hattrs
  have hgl : ∀ pr ∈ g.attributes.getD [],
      pr.2.length = (gsAbsPoints g).length ∧ ∀ v ∈ pr.2, DecRepr v :=
    fun pr hpr => ⟨by rw [gsAbsPoints_length]; exact (hall pr hpr).2.1,
      (hall pr hpr).2.2⟩
  have hgood : ∀ pr ∈ g.attributes.getD [], goodName pr.1 = true :=
    fun pr hpr => (hall pr hpr).1
  have hximp := gsImport_xya_written g hne hdec hnd hgood hgl
  have hpimp := gsImport_pts_written g hne
  constructor
  · refine ⟨_, hximp, ?_, ?_⟩
    · show get_absolute defaultGeoRef (gsAbsPoints g) = gsAbsPoints g
      exact get_absolute_default _
    · intro k
      rw [gsAttrLookup_getD g k]
      rfl
  · refine ⟨_, hpimp, ?_, ?_⟩
    · show get_absolute defaultGeoRef (gsAbsPoints g) = gsAbsPoints g
      exact get_absolute_default _
    · intro k
      rw [gsAttrLookup_getD g k]
      rfl

unseal Rat.add Rat.sub Rat.mul Rat.inv in
/-- Witness for C6's theorem at the claim's example: points
`[[0.6,0.7],[1.9,2.8]]` with attribute `elevation=[4.9,5.0]` in zone 56. -/
theorem export_import_points_file_roundtrip_witness :
    ((⟨[(6/10, 7/10), (19/10, 28/10)],
        some [("elevation".toList, [49/10, 5])], ⟨56, 0, 0⟩⟩ :
          Geospatial_data).data_points ≠ [] ∧
      ptsDecRepr (gsAbsPoints ⟨[(6/10, 7/10), (19/10, 28/10)],
        some [("elevation".toList, [49/10, 5])], ⟨56, 0, 0⟩⟩) ∧
      xyaAttrsOK [("elevation".toList, [49/10, 5])] 2) ∧
    ((∃ gx, gsImport_xya (export_xya_absolute ⟨[(6/10, 7/10), (19/10, 28/10)],
        some [("elevation".toList, [49/10, 5])], ⟨56, 0, 0⟩⟩) = .ok gx ∧
      gsAbsPoints gx = gsAbsPoints ⟨[(6/10, 7/10), (19/10, 28/10)],
        some [("elevation".toList, [49/10, 5])], ⟨56, 0, 0⟩⟩ ∧
      ∀ k, gsAttrLookup gx k = gsAttrLookup ⟨[(6/10, 7/10), (19/10, 28/10)],
        some [("elevation".toList, [49/10, 5])], ⟨56, 0, 0⟩⟩ k) ∧
    (∃ gp, gsImport_pts (export_pts_absolute ⟨[(6/10, 7/10), (19/10, 28/10)],
        some [("elevation".toList, [49/10, 5])], ⟨56, 0, 0⟩⟩) = .ok gp ∧
      gsAbsPoints gp = gsAbsPoints ⟨[(6/10, 7/10), (19/10, 28/10)],
        some [("elevation".toList, [49/10, 5])], ⟨56, 0, 0⟩⟩ ∧
      ∀ k, gsAttrLookup gp k = gsAttrLookup ⟨[(6/10, 7/10), (19/10, 28/10)],
        some [("elevation".toList, [49/10, 5])], ⟨56, 0, 0⟩⟩ k)) :=
  ⟨⟨by decide, by decide, by decide⟩,
    export_import_points_file_roundtrip
      ⟨[(6/10, 7/10), (19/10, 28/10)],
        some [("elevation".toList, [49/10, 5])], ⟨56, 0, 0⟩⟩
      (by decide) (by decide) (by decide)⟩
